import Mathlib

/-!
Verification of the ISEC contract-note extraction pipeline
(src/extractor_openai.py) against its natural-language specification.

The development shallowly embeds the pipeline:
* the Document Reducer page selection (`_reduce_pdf_size`),
* the Response Recovery pass (`_clean_response_text`, `_fix_truncated_json`,
  `_parse_json_response`),
* the Model Gateway fallback logic (`_extract_with_openai`),
* the Result Validator (`_validate_extracted_data`, `_validate_transaction`,
  `_validate_obligations`),
* the Pipeline Orchestrator (`extract_from_pdf`).

External effects (file sizes, the OpenAI client, `json.loads`) are passed in
as explicit oracle functions; Python exceptions are modelled with
`Except String`.
-/

/-- A JSON-like value as produced by `json.loads`.  Numbers are modelled as
rationals (Python floats and ints collapsed); this is exact for every value
the claims touch. -/
inductive JsonVal : Type where
  | null : JsonVal
  | bool : Bool → JsonVal
  | num : ℚ → JsonVal
  | str : String → JsonVal
  | arr : List JsonVal → JsonVal
  | obj : List (String × JsonVal) → JsonVal

/-- `l₁` occurs as a contiguous prefix of `l₂`. -/
def isPrefixList : List Char → List Char → Bool
  | [], _ => true
  | _ :: _, [] => false
  | a :: l₁, b :: l₂ => a == b && isPrefixList l₁ l₂

/-- Index of the first occurrence of `pat` as a contiguous sublist of
`hay`, if any (the position at which `str.find` / `in` would locate it). -/
def findSubstrIdx (pat : List Char) : List Char → Option Nat
  | [] => if pat.isEmpty then some 0 else none
  | c :: rest =>
      if isPrefixList pat (c :: rest) then some 0
      else (findSubstrIdx pat rest).map (· + 1)

/-- Python `==` between a string and a JSON-decoded value: true exactly for
an equal string (a string never compares equal to a number, list, dict,
boolean or None). -/
def eqStrVal (key : String) : JsonVal → Bool
  | .str s => key == s
  | _ => false

/-- Association-list lookup, modelling Python dict key access (dict keys are
unique, so first-match lookup is faithful). -/
def lookupKey : List (String × JsonVal) → String → Option JsonVal
  | [], _ => none
  | (k, v) :: rest, key => if k = key then some v else lookupKey rest key

/-- Python dict item assignment `d[k] = v`: replaces the value at an existing
key in place (dicts preserve insertion order), or appends a new key. -/
def setKey : List (String × JsonVal) → String → JsonVal → List (String × JsonVal)
  | [], k, v => [(k, v)]
  | (k0, v0) :: rest, k, v =>
      if k0 = k then (k0, v) :: rest else (k0, v0) :: setKey rest k v

/-- Python truthiness (`if not x`) on JSON-decoded values: None, False, 0,
empty string, empty list and empty dict are falsy. -/
def JsonVal.falsy : JsonVal → Bool
  | .null => true
  | .bool b => !b
  | .num q => q == 0
  | .str s => s.isEmpty
  | .arr xs => xs.isEmpty
  | .obj fs => fs.isEmpty

/-- Python `isinstance(value, (int, float))` on JSON-decoded values.
`bool` is a subclass of `int` in Python, so booleans pass the check. -/
def isNumericPy : JsonVal → Bool
  | .num _ => true
  | .bool _ => true
  | _ => false

/-- Rendering used for values interpolated into f-string error messages.
For strings this is the string itself; for containers Python would print a
repr, which no claim inspects, so a fixed placeholder is used. -/
def pyStr : JsonVal → String
  | .null => "None"
  | .bool b => if b then "True" else "False"
  | .num q => toString q
  | .str s => s
  | .arr _ => "[...]"
  | .obj _ => "\x7b...\x7d"

/-- Python `key in container` (`__contains__`).  On dicts it is key
membership, on strings a substring test, on lists element equality; on
scalars Python raises `TypeError`. -/
def pyIn (key : String) : JsonVal → Except String Bool
  | .obj fs => .ok (lookupKey fs key).isSome
  | .str s => .ok (findSubstrIdx key.data s.data).isSome
  | .arr xs => .ok (xs.any (eqStrVal key))
  | .null => .error "TypeError: argument of type NoneType is not iterable"
  | .bool _ => .error "TypeError: argument of type bool is not iterable"
  | .num _ => .error "TypeError: argument of type float is not iterable"

/-- Python `container[key]` with a string key.  Raises `KeyError` for a
missing dict key and `TypeError` on non-dict containers. -/
def pyIndex : JsonVal → String → Except String JsonVal
  | .obj fs, key =>
      match lookupKey fs key with
      | some v => .ok v
      | none => .error ("KeyError: " ++ key)
  | .str _, _ => .error "TypeError: string indices must be integers"
  | .arr _, _ => .error "TypeError: list indices must be integers"
  | _, _ => .error "TypeError: value is not subscriptable"

/-- Python `d.get(key, default)`.  Only dicts have `.get`; any other value
raises `AttributeError`. -/
def pyGet : JsonVal → String → JsonVal → Except String JsonVal
  | .obj fs, key, dflt => .ok ((lookupKey fs key).getD dflt)
  | _, _, _ => .error "AttributeError: value has no attribute get"

/-- Python `len(x)` for the container shapes; scalars raise `TypeError`. -/
def pyLen : JsonVal → Except String Nat
  | .arr xs => .ok xs.length
  | .str s => .ok s.length
  | .obj fs => .ok fs.length
  | _ => .error "TypeError: object has no len"

/-! ## Document Reducer (`_reduce_pdf_size`, lines 235-295)

The page-selection core of `_reduce_pdf_size`, abstracted over the page
type: with 4 or fewer pages every page is copied; otherwise the loop
`for i in range(min(2, total_pages))` copies the first two pages and
`for i in range(max(0, total_pages - 2), total_pages)` copies the last two.
(In the else-branch `total_pages ≥ 5`, so `min 2 total = 2` and
`total - 2 ≥ 3`; the `min`/`max` guards are kept from the source.) -/
def reduce_pdf_pages {α : Type} (pages : List α) : List α :=
  let totalPages := pages.length
  if totalPages ≤ 4 then
    pages
  else
    pages.take (min 2 totalPages) ++ pages.drop (max 0 (totalPages - 2))

/-! ## Response Recovery (`_clean_response_text`, `_fix_truncated_json`,
`_parse_json_response`, lines 466-566)

Everything operates on `List Char`; `String.data` bridges from literals.
`json.loads` is an oracle `List Char → Option JsonVal` (`none` models a
raised `JSONDecodeError`); the surrounding repair logic is embedded
concretely. -/

/-- Python `\s` for the ASCII range (also used for `str.strip`). -/
def isPySpace (c : Char) : Bool :=
  c == ' ' || c == '\t' || c == '\n' || c == '\r' || c == '\x0b' || c == '\x0c'

/-- `[a-zA-Z]` from the fence-removal regex. -/
def isAsciiLetter (c : Char) : Bool :=
  ('a' ≤ c && c ≤ 'z') || ('A' ≤ c && c ≤ 'Z')

/-- Python `str.strip()`: drop whitespace from both ends. -/
def trim (l : List Char) : List Char :=
  ((l.dropWhile isPySpace).reverse.dropWhile isPySpace).reverse

/-- The three-backtick fence marker. -/
def fenceChars : List Char := "```".data

/-- The fence marker labelled for JSON. -/
def fenceJsonChars : List Char := "```json".data

/-- `re.sub(r'```[a-zA-Z]*\s*', '', text)`: remove every fence marker
together with its trailing language label and whitespace, scanning left to
right without overlap. -/
def removeFences1 : List Char → List Char
  | [] => []
  | c :: rest =>
    if isPrefixList fenceChars (c :: rest) then
      removeFences1 (((rest.drop 2).dropWhile isAsciiLetter).dropWhile isPySpace)
    else
      c :: removeFences1 rest
termination_by l => l.length
decreasing_by
  · have h1 := (List.dropWhile_sublist isAsciiLetter (l := rest.drop 2)).length_le
    have h2 := (List.dropWhile_sublist isPySpace (l := (rest.drop 2).dropWhile isAsciiLetter)).length_le
    simp only [List.length_drop] at h1 ⊢
    simp only [List.length_cons]
    omega
  · simp only [List.length_cons]
    omega

/-- `re.sub(r'\s*```\s*', '', text)`: remove every fence marker together
with the whitespace around it.  (After `removeFences1` no fence marker
remains, so in the pipeline this pass is a no-op; it is kept from the
source.) -/
def removeFences2 (l : List Char) : List Char :=
  match l with
  | [] => []
  | c :: rest =>
    match h : (c :: rest).dropWhile isPySpace,
          isPrefixList fenceChars ((c :: rest).dropWhile isPySpace) with
    | _ :: _ :: _ :: body, true =>
        removeFences2 (body.dropWhile isPySpace)
    | [], _ => (c :: rest).takeWhile isPySpace
    | d :: tail, _ => (c :: rest).takeWhile isPySpace ++ d :: removeFences2 tail
termination_by l.length
decreasing_by
  · have h1 := (List.dropWhile_sublist isPySpace (l := c :: rest)).length_le
    rw [h] at h1
    have h2 := (List.dropWhile_sublist isPySpace (l := body)).length_le
    simp only [List.length_cons] at h1 ⊢
    omega
  · have h1 := (List.dropWhile_sublist isPySpace (l := c :: rest)).length_le
    rw [h] at h1
    simp only [List.length_cons] at h1 ⊢
    omega

/-- `_clean_response_text` (lines 511-540): prefer the contents of a
` ```json `-labelled fence, then of a generic fence, then strip stray fence
markers; always `strip()` the result.  (The regexes
`` r'```json\s*(.*?)\s*```' `` and `` r'```\s*(.*?)\s*```' `` with
`re.DOTALL` capture the lazily-shortest region between the opening marker
and the next closing marker, with surrounding whitespace absorbed; the
search starts from the first opening marker.) -/
def clean_response_text (s : List Char) : List Char :=
  match
    (match findSubstrIdx fenceJsonChars s with
     | some i =>
         (findSubstrIdx fenceChars (s.drop (i + 7))).map
           (fun j => trim ((s.drop (i + 7)).take j))
     | none => none) with
  | some r => r
  | none =>
    match
      (match findSubstrIdx fenceChars s with
       | some i =>
           (findSubstrIdx fenceChars (s.drop (i + 3))).map
             (fun j => trim ((s.drop (i + 3)).take j))
       | none => none) with
    | some r => r
    | none => trim (removeFences2 (removeFences1 s))

/-- Contribution of one character to the running brace counter of
`_fix_truncated_json`. -/
def braceDelta (ch : Char) : Int :=
  if ch = '{' then 1 else if ch = '}' then -1 else 0

/-- Net brace balance of a character list. -/
def netBraces : List Char → Int
  | [] => 0
  | ch :: rest => braceDelta ch + netBraces rest

/-- The scanning loop of `_fix_truncated_json` (lines 546-555): walk the
characters with a running `brace_count`, remembering in `lastPos` the last
index at which a closing brace returned the counter to zero. -/
def braceScanAux : List Char → Int → Nat → Option Nat → Int × Option Nat
  | [], count, _, lastPos => (count, lastPos)
  | ch :: rest, count, i, lastPos =>
      braceScanAux rest (count + braceDelta ch) (i + 1)
        (if ch = '}' ∧ count + braceDelta ch = 0 then some i else lastPos)

/-- Scan a whole string: final `brace_count` and `last_complete_pos`
(`none` models the sentinel `-1`). -/
def braceScan (s : List Char) : Int × Option Nat :=
  braceScanAux s 0 0 none

/-- `_fix_truncated_json` (lines 542-566): truncate to the last position at
which the brace depth returned to zero, provided that position is past the
start and strictly before the final character; otherwise return the input
unchanged.  The scan itself cannot raise, so the try/except around it in
the source is vacuous and the function is total. -/
def fix_truncated_json (s : List Char) : List Char :=
  match (braceScan s).2 with
  | some p => if 0 < p ∧ p < s.length - 1 then s.take (p + 1) else s
  | none => s

/-- First index of a character, if present. -/
def firstIdxOf (c : Char) : List Char → Option Nat
  | [] => none
  | a :: rest => if a = c then some 0 else (firstIdxOf c rest).map (· + 1)

/-- Last index of a character, if present. -/
def lastIdxOf (c : Char) : List Char → Option Nat
  | [] => none
  | a :: rest =>
    match lastIdxOf c rest with
    | some j => some (j + 1)
    | none => if a = c then some 0 else none

/-- The region selected by the greedy match of `` r'\{[\s\S]*\}' ``
(line 475): from the first opening brace to the last closing brace after
it, if any. -/
def selectBraceSpan (s : List Char) : Option (List Char) :=
  match firstIdxOf '{' s, lastIdxOf '}' s with
  | some i, some j => if i < j then some ((s.drop i).take (j - i + 1)) else none
  | _, _ => none

/-- The string the first parse attempt feeds to `json.loads`. -/
def selected_json_string (cleaned : List Char) : List Char :=
  match selectBraceSpan cleaned with
  | some span => fix_truncated_json span
  | none => trim cleaned

/-- `_parse_json_response` (lines 466-509): clean, select the brace region,
repair and parse; on `JSONDecodeError` retry with the repair pass applied
to the whole cleaned text; on failure of both attempts return the empty
mapping.  The `loads` oracle models `json.loads` (`none` = a raised
`JSONDecodeError`). -/
def parse_json_response (loads : List Char → Option JsonVal) (text : List Char) : JsonVal :=
  match loads (selected_json_string (clean_response_text text)) with
  | some d => d
  | none =>
    match loads (fix_truncated_json (clean_response_text text)) with
    | some d => d
    | none => JsonVal.obj []

/-! ## Model Gateway (`_extract_with_openai`, lines 320-434)

The two network calls are oracles; the request-parameter dictionaries are
embedded as a record with optional fields so that the presence or absence
of `max_tokens`, `temperature` and `max_completion_tokens` is observable. -/

/-- The `config["openai"]` section: `max_tokens` is a required key,
`temperature` is read with `.get("temperature", 0.1)`. -/
structure OpenAIConfig : Type where
  maxTokens : ℕ
  temperature : Option ℚ

/-- The chat-completion request parameters whose presence is
model-family-conditional (the `messages` entry is common to every request
and carries no claim-relevant content, so it is not modelled). -/
structure RequestParams : Type where
  model : String
  maxTokens : Option ℕ
  temperature : Option ℚ
  maxCompletionTokens : Option ℕ
  deriving DecidableEq

/-- Parameter selection for the primary request (lines 359-367): a model
whose identifier starts with `gpt-5` gets `max_completion_tokens` and no
`temperature`; a legacy model gets `max_tokens` and `temperature`
(default 0.1). -/
def build_request_params (cfg : OpenAIConfig) (model : String) : RequestParams :=
  if isPrefixList "gpt-5".data model.data then
    { model := model, maxTokens := none, temperature := none,
      maxCompletionTokens := some cfg.maxTokens }
  else
    { model := model, maxTokens := some cfg.maxTokens,
      temperature := some (cfg.temperature.getD (1 / 10)),
      maxCompletionTokens := none }

/-- The fallback parameters (lines 394-401): copy the primary request,
switch the model to the hardcoded `gpt-4o`, add back `max_tokens` and
`temperature`, and delete `max_completion_tokens`. -/
def build_fallback_params (cfg : OpenAIConfig) (primary : RequestParams) : RequestParams :=
  { primary with
      model := "gpt-4o",
      maxTokens := some cfg.maxTokens,
      temperature := some (cfg.temperature.getD (1 / 10)),
      maxCompletionTokens := none }

/-- `_extract_with_openai` (lines 320-434).  `primaryOutcome` is the
primary chat-completion call (`Except.error` = a raised exception,
otherwise the response text, with `None` content collapsed to the empty
string); `fallbackRespond` answers the fallback request, and the returned
list records every fallback request issued.  `loads` is the `json.loads`
oracle threaded to `_parse_json_response`. -/
def extract_with_openai (cfg : OpenAIConfig) (model : String)
    (primaryOutcome : Except String String)
    (fallbackRespond : RequestParams → Except String String)
    (loads : List Char → Option JsonVal) : JsonVal × List RequestParams :=
  match primaryOutcome with
  | .error _ => (JsonVal.obj [], [])
  | .ok text =>
    if text = "" then
      if isPrefixList "gpt-5".data model.data then
        let fp := build_fallback_params cfg (build_request_params cfg model)
        match fallbackRespond fp with
        | .ok ftext =>
            if ftext = "" then (JsonVal.obj [], [fp])
            else (parse_json_response loads ftext.data, [fp])
        | .error _ => (JsonVal.obj [], [fp])
      else
        (JsonVal.obj [], [])
    else
      (parse_json_response loads text.data, [])

/-! ## Result Validator (`_validate_extracted_data`,
`_validate_transaction`, `_validate_obligations`, lines 568-683)

The validator receives whatever `json.loads` produced, so it takes a
`JsonVal`; Python `TypeError`/`AttributeError`/`KeyError` raised on
unexpected shapes propagate as `Except.error` up to the catch-all handler
of `extract_from_pdf`. -/

/-- The six required header fields (lines 581-584). -/
def requiredHeaderFields : List String :=
  ["contract_note_no", "trade_date", "settlement_no",
   "settlement_date", "client_id", "client_name"]

/-- The numeric transaction fields (lines 628-633). -/
def numericFields : List String :=
  ["buy_quantity", "sell_quantity", "total_quantity",
   "buy_weighted_average_price", "sell_weighted_average_price",
   "buy_net_payable_receivable", "sell_net_payable_receivable",
   "total_net_payable_receivable"]

/-- The seven required obligations fields (lines 650-654). -/
def obligationsRequiredFields : List String :=
  ["pay_out_obligation", "taxable_value_of_supply",
   "gst_details", "securities_transaction_tax", "stamp_duty",
   "net_amount_receivable_by_client", "net_amount_to_be_credited_in_bank"]

/-- The four `taxable_value_of_supply` fields (lines 663-664). -/
def tvsFields : List String :=
  ["total_brokerage", "exchange_transaction_charges",
   "sebi_turnover_fees", "total_taxable_value"]

/-- The twelve `gst_details` fields (lines 673-677). -/
def gstFields : List String :=
  ["cgst_rate", "cgst_brokerage_amount", "cgst_charges_amount", "cgst_total_amount",
   "sgst_rate", "sgst_brokerage_amount", "sgst_charges_amount", "sgst_total_amount",
   "igst_rate", "igst_brokerage_amount", "igst_charges_amount", "igst_total_amount"]

/-- The error message for a missing or empty required header field. -/
def headerFieldMsg (f : String) : String :=
  "Missing required header field: " ++ f

/-- 12 characters: two uppercase letters then ten uppercase alphanumerics
(the body of `r'^[A-Z]{2}[0-9A-Z]{10}$'`). -/
def isinCore (cs : List Char) : Bool :=
  cs.length == 12 &&
  (cs.take 2).all (fun c => 'A' ≤ c && c ≤ 'Z') &&
  (cs.drop 2).all (fun c => ('0' ≤ c && c ≤ '9') || ('A' ≤ c && c ≤ 'Z'))

/-- `re.match(r'^[A-Z]{2}[0-9A-Z]{10}$', s)` as a boolean.  Python `$`
also matches just before one trailing newline, which the second disjunct
reproduces. -/
def isin_regex_match (s : String) : Bool :=
  isinCore s.data ||
  (s.data.length == 13 && s.data.getLast? == some '\n' && isinCore (s.data.take 12))

/-- Decimal digits to a natural number. -/
def digitsToNat (cs : List Char) : ℕ :=
  cs.foldl (fun acc c => acc * 10 + (c.toNat - 48)) 0

/-- A run of decimal digits after its first digit, possibly grouped by
single underscores placed between digits (accepted by Python `float`
since 3.6); returns the digits with the underscores removed, or `none`
when the grouping is malformed (trailing or doubled underscore, or an
underscore not followed by a digit). -/
def groupedDigitsGo : List Char → Option (List Char)
  | [] => some []
  | '_' :: d :: rest =>
      if d.isDigit then (groupedDigitsGo rest).map (fun ds => d :: ds) else none
  | ['_'] => none
  | d :: rest =>
      if d.isDigit then (groupedDigitsGo rest).map (fun ds => d :: ds) else none

/-- A non-empty, possibly underscore-grouped digit run: a digit followed
by digits and well-placed underscores. -/
def groupedDigits : List Char → Option (List Char)
  | [] => none
  | c :: rest =>
      if c.isDigit then (groupedDigitsGo rest).map (fun ds => c :: ds) else none

/-- Split at the first character satisfying `p`: the part before it and,
when it occurs, the part after it. -/
def splitAtFirst (p : Char → Bool) : List Char → List Char × Option (List Char)
  | [] => ([], none)
  | c :: rest =>
      if p c then ([], some rest)
      else
        let pr := splitAtFirst p rest
        (c :: pr.1, pr.2)

/-- The exponent of a float literal: an optional sign and a non-empty,
possibly underscore-grouped digit run. -/
def parseExponent (cs : List Char) : Option ℤ :=
  let signed : Bool × List Char :=
    match cs with
    | '-' :: rest => (true, rest)
    | '+' :: rest => (false, rest)
    | _ => (false, cs)
  (groupedDigits signed.2).map
    (fun ds => if signed.1 then -(digitsToNat ds : ℤ) else (digitsToNat ds : ℤ))

/-- The mantissa `[digits][.digits]` of a float literal, at least one
digit overall, underscores stripped; returns the integer and fraction
digit runs. -/
def parseMantissa (cs : List Char) : Option (List Char × List Char) :=
  let sp := splitAtFirst (· == '.') cs
  let intDigits : Option (List Char) :=
    if sp.1.isEmpty then some [] else groupedDigits sp.1
  let fracDigits : Option (List Char) :=
    match sp.2 with
    | none => some []
    | some fp => if fp.isEmpty then some [] else groupedDigits fp
  match intDigits, fracDigits with
  | some di, some df => if di.isEmpty && df.isEmpty then none else some (di, df)
  | _, _ => none

/-- Python `float(s)` on a string: optional surrounding whitespace, an
optional sign, a decimal mantissa with optional fraction, and an optional
`e`/`E` exponent, all with Python 3.6 digit-group underscores; the value
is computed exactly as a rational.  Python additionally accepts `inf`,
`infinity` and `nan` (case-insensitively, after a sign) and non-ASCII
decimal digits; non-finite floats have no counterpart in the
rational-valued number model, so those inputs are rejected here, and the
purity theorem below therefore draws its boundary before any `float`
call rather than at parse success. -/
def parseDecimal (s : String) : Option ℚ :=
  let cs := trim s.data
  let signed : Bool × List Char :=
    match cs with
    | '-' :: rest => (true, rest)
    | '+' :: rest => (false, rest)
    | _ => (false, cs)
  let sp := splitAtFirst (fun c => c == 'e' || c == 'E') signed.2
  let mag : Option ℚ :=
    match parseMantissa sp.1 with
    | none => none
    | some (di, df) =>
        let base : ℚ :=
          if df.isEmpty then (digitsToNat di : ℚ)
          else (digitsToNat (di ++ df) : ℚ) / (10 : ℚ) ^ df.length
        match sp.2 with
        | none => some base
        | some ecs => (parseExponent ecs).map (fun e => base * (10 : ℚ) ^ e)
  mag.map (fun q => if signed.1 then -q else q)

/-- Python `float(value)` (line 639): parses strings, converts booleans
(unreachable behind the `isinstance` guard), and raises — modelled as
`none` — on None, lists and dicts; the raise is caught by the
`except (ValueError, TypeError)` of the source. -/
def pyFloat : JsonVal → Option ℚ
  | .str s => parseDecimal s
  | .bool b => some (if b then 1 else 0)
  | .num q => some q
  | _ => none

/-- In-place update `transaction[field] = ...` on a dict value;
non-dict values are returned unchanged (the source only assigns after a
successful `.get`, which guarantees a dict). -/
def setField (t : JsonVal) (k : String) (v : JsonVal) : JsonVal :=
  match t with
  | .obj fs => .obj (setKey fs k v)
  | other => other

/-- The numeric-coercion loop of `_validate_transaction` (lines 635-641):
for each listed field present with a non-`None`, non-numeric value, try
`float(value)`; on success assign the coerced number back into the
transaction (mutating it), on failure append one error and continue. -/
def coerce_numeric_fields (pfx : String) (fields : List String)
    (errs : List String) (t : JsonVal) : Except String (List String × JsonVal) :=
  match fields with
  | [] => .ok (errs, t)
  | f :: rest =>
    match pyGet t f JsonVal.null with
    | .error e => .error e
    | .ok value =>
      match value with
      | .null => coerce_numeric_fields pfx rest errs t
      | _ =>
        if isNumericPy value then coerce_numeric_fields pfx rest errs t
        else
          match pyFloat value with
          | some q => coerce_numeric_fields pfx rest errs (setField t f (JsonVal.num q))
          | none => coerce_numeric_fields pfx rest
              (errs ++ [pfx ++ ": Invalid numeric value for " ++ f ++ ": " ++ pyStr value]) t

/-- The ISIN checks of `_validate_transaction` (lines 616-621): falsy
means missing; a non-matching string is malformed; `re.match` on a
non-string truthy value raises `TypeError` as in Python. -/
def isin_errors (pfx : String) (isin : JsonVal) : Except String (List String) :=
  if isin.falsy then .ok [pfx ++ ": Missing ISIN"]
  else
    match isin with
    | JsonVal.str s =>
        .ok (if isin_regex_match s then []
             else [pfx ++ ": Invalid ISIN format: " ++ s])
    | _ => .error "TypeError: expected string or bytes-like object"

/-- `_validate_transaction` (lines 611-643).  Returns the accumulated
errors together with the (possibly mutated) transaction. -/
def validate_transaction (transaction : JsonVal) (index : ℕ) :
    Except String (List String × JsonVal) :=
  let pfx := "Transaction " ++ toString index
  match pyGet transaction "isin" (JsonVal.str "") with
  | .error e => .error e
  | .ok isin =>
    match isin_errors pfx isin with
    | .error e => .error e
    | .ok isinErrs =>
      match pyGet transaction "security_name" JsonVal.null with
      | .error e => .error e
      | .ok sec =>
        let secErrs := if sec.falsy then [pfx ++ ": Missing security name"] else []
        coerce_numeric_fields pfx numericFields (isinErrs ++ secErrs) transaction

/-- A `for field in fields: if field not in container: errors.append(...)`
loop, shared by the three obligations checks. -/
def missing_field_errors (container : JsonVal) (fields : List String)
    (mk : String → String) : Except String (List String) :=
  match fields with
  | [] => .ok []
  | f :: rest =>
    match pyIn f container with
    | .error e => .error e
    | .ok mem =>
      match missing_field_errors container rest mk with
      | .error e => .error e
      | .ok others => .ok ((if mem then [] else [mk f]) ++ others)

/-- `_validate_obligations` (lines 645-683): required top-level fields,
then the nested `taxable_value_of_supply` and `gst_details` structures. -/
def validate_obligations (obligations : JsonVal) : Except String (List String) :=
  match missing_field_errors obligations obligationsRequiredFields
      (fun f => "Missing obligations field: " ++ f) with
  | .error e => .error e
  | .ok top =>
    match pyIn "taxable_value_of_supply" obligations with
    | .error e => .error e
    | .ok hasTvs =>
      match
        (if hasTvs then
          match pyIndex obligations "taxable_value_of_supply" with
          | .error e => Except.error e
          | .ok tvs => missing_field_errors tvs tvsFields
              (fun f => "Missing taxable value field: " ++ f)
         else Except.ok []) with
      | .error e => .error e
      | .ok tvsErrs =>
        match pyIn "gst_details" obligations with
        | .error e => .error e
        | .ok hasGst =>
          match
            (if hasGst then
              match pyIndex obligations "gst_details" with
              | .error e => Except.error e
              | .ok gst => missing_field_errors gst gstFields
                  (fun f => "Missing GST detail field: " ++ f)
             else Except.ok []) with
          | .error e => .error e
          | .ok gstErrs => .ok (top ++ tvsErrs ++ gstErrs)

/-- The header-field loop of `_validate_extracted_data` (lines 586-588):
`if field not in header or not header[field]` appends one error per
missing-or-empty field. -/
def header_field_errors (header : JsonVal) (fields : List String) :
    Except String (List String) :=
  match fields with
  | [] => .ok []
  | f :: rest =>
    match pyIn f header with
    | .error e => .error e
    | .ok mem =>
      match
        (if mem then
          match pyIndex header f with
          | .error e => Except.error e
          | .ok v => Except.ok (if v.falsy then [headerFieldMsg f] else [])
         else Except.ok [headerFieldMsg f]) with
      | .error e => .error e
      | .ok here =>
        match header_field_errors header rest with
        | .error e => .error e
        | .ok there => .ok (here ++ there)

/-- The header section of `_validate_extracted_data` (lines 577-588). -/
def validate_header (data : JsonVal) : Except String (List String) :=
  match pyIn "header" data with
  | .error e => .error e
  | .ok false => .ok ["Missing header section"]
  | .ok true =>
    match pyIndex data "header" with
    | .error e => .error e
    | .ok header => header_field_errors header requiredHeaderFields

/-- The `for i, transaction in enumerate(transactions)` loop
(lines 598-600); the mutated transactions are discarded here because the
enclosing function only returns the error list (the mutation is observable
through `_validate_transaction` itself). -/
def validate_transaction_list (txs : List JsonVal) (i : ℕ) :
    Except String (List String) :=
  match txs with
  | [] => .ok []
  | t :: rest =>
    match validate_transaction t i with
    | .error e => .error e
    | .ok (es, _) =>
      match validate_transaction_list rest (i + 1) with
      | .error e => .error e
      | .ok more => .ok (es ++ more)

/-- The transactions section of `_validate_extracted_data`
(lines 591-600). -/
def validate_transactions_section (data : JsonVal) : Except String (List String) :=
  match pyIn "transactions" data with
  | .error e => .error e
  | .ok false => .ok ["Missing transactions section"]
  | .ok true =>
    match pyIndex data "transactions" with
    | .error e => .error e
    | .ok txs =>
      match txs with
      | .arr xs => validate_transaction_list xs 0
      | _ => .ok ["Transactions should be a list"]

/-- The obligations section of `_validate_extracted_data`
(lines 603-607). -/
def validate_obligations_section (data : JsonVal) : Except String (List String) :=
  match pyIn "obligations" data with
  | .error e => .error e
  | .ok false => .ok ["Missing obligations section"]
  | .ok true =>
    match pyIndex data "obligations" with
    | .error e => .error e
    | .ok ob => validate_obligations ob

/-- `_validate_extracted_data` (lines 568-609): an early return on falsy
data, then the three section checks in order, all errors concatenated. -/
def validate_extracted_data (data : JsonVal) : Except String (List String) :=
  if data.falsy then .ok ["No data extracted from PDF"]
  else
    match validate_header data with
    | .error e => .error e
    | .ok hErrs =>
      match validate_transactions_section data with
      | .error e => .error e
      | .ok tErrs =>
        match validate_obligations_section data with
        | .error e => .error e
        | .ok oErrs => .ok (hErrs ++ tErrs ++ oErrs)

/-! ## Pipeline Orchestrator (`extract_from_pdf`, lines 128-233)

File sizes, PDF reduction, upload and extraction are oracles in a
`PipelineEnv`; `Except.error` from an oracle models a raised exception.
File sizes are byte counts; the megabyte conversion divides by `1024*1024`
exactly (the double-precision rounding of the source is exact for every
realistic size). -/

/-- The result envelope (`ExtractionResult` dataclass, lines 43-50). -/
structure ExtractionResult : Type where
  success : Bool
  data : JsonVal
  errors : List String
  warnings : List String
  metadata : List (String × JsonVal)

/-- The `config["pdf_reduction"]` section, read with
`.get("enabled", True)` and `.get("max_file_size_mb", 50)`. -/
structure PdfReductionConfig : Type where
  enabled : Option Bool
  maxFileSizeMb : Option ℚ

/-- The configuration state the orchestrator reads. -/
structure Config : Type where
  model : String
  pdfReduction : PdfReductionConfig

/-- The effectful collaborators of `extract_from_pdf`:
`getFileSize` is `os.path.getsize` (may raise), `reducePdf` is
`_reduce_pdf_size` (returns the temp path or raises), `uploadPdf` is
`_upload_pdf` (catches internally, `none` on failure), `extractData` is
`_extract_with_openai` (catches internally, total), `now` is
`datetime.now().isoformat()` and `format2f` is the `:.2f` float
rendering used in the reduction warning. -/
structure PipelineEnv : Type where
  getFileSize : String → Except String ℕ
  reducePdf : String → Except String String
  uploadPdf : String → Option String
  extractData : String → JsonVal
  now : String
  format2f : ℚ → String

/-- The catch-all `except Exception` result (lines 217-228): errors are
replaced by a single `Extraction failed` entry, warnings are kept,
metadata holds only the path and timestamp. -/
def catchAllResult (now msg origPath : String) (warnings : List String) :
    ExtractionResult :=
  { success := false, data := JsonVal.obj [],
    errors := ["Extraction failed: " ++ msg], warnings := warnings,
    metadata := [("pdf_path", JsonVal.str origPath),
                 ("extraction_timestamp", JsonVal.str now)] }

/-- The metadata dictionary (lines 195-207): note
`len(extracted_data.get('transactions', []))` can raise on non-dict data
or a non-sized transactions value, and the reduced-size entry re-reads the
file size, both inside the try-block. -/
def buildMetadata (env : PipelineEnv) (model now origPath fileId : String)
    (extracted_data : JsonVal) (numErrors : ℕ) (file_size_mb : ℚ)
    (reducedPath : Option String) : Except String (List (String × JsonVal)) :=
  match pyGet extracted_data "transactions" (JsonVal.arr []) with
  | .error e => .error e
  | .ok txs =>
    match pyLen txs with
    | .error e => .error e
    | .ok n =>
      let base : List (String × JsonVal) :=
        [("extraction_timestamp", JsonVal.str now),
         ("pdf_path", JsonVal.str origPath),
         ("model_used", JsonVal.str model),
         ("file_id", JsonVal.str fileId),
         ("total_transactions", JsonVal.num (n : ℚ)),
         ("validation_errors", JsonVal.num (numErrors : ℚ)),
         ("original_file_size_mb", JsonVal.num file_size_mb),
         ("file_reduced", JsonVal.bool reducedPath.isSome)]
      match reducedPath with
      | none => .ok base
      | some rp =>
        match env.getFileSize rp with
        | .error e => .error e
        | .ok rbytes =>
            .ok (base ++ [("reduced_file_size_mb",
              JsonVal.num ((rbytes : ℚ) / (1024 * 1024)))])

/-- The pipeline from the upload step onwards (lines 173-215).  The
`data` field carries the parsed mapping as returned by the extraction
step; in Python the in-place numeric coercions of `_validate_transaction`
are shared mutations of that same mapping, which this embedding exposes
through the transaction returned by `validate_transaction` rather than by
replaying them into `data`. -/
def extract_pipeline_rest (env : PipelineEnv) (cfg : Config)
    (origPath usePath : String) (reducedPath : Option String)
    (file_size_mb : ℚ) (warnings : List String) : ExtractionResult :=
  match env.uploadPdf usePath with
  | none =>
      { success := false, data := JsonVal.obj [],
        errors := ["Failed to upload PDF to OpenAI"],
        warnings := warnings, metadata := [] }
  | some fileId =>
    let extracted_data := env.extractData fileId
    match validate_extracted_data extracted_data with
    | .error e => catchAllResult env.now e origPath warnings
    | .ok validationErrors =>
      let errors := validationErrors
      let success := errors.isEmpty
      match buildMetadata env cfg.model env.now origPath fileId extracted_data
          errors.length file_size_mb reducedPath with
      | .error e => catchAllResult env.now e origPath warnings
      | .ok md =>
          { success := success, data := extracted_data, errors := errors,
            warnings := warnings, metadata := md }

/-- `extract_from_pdf` (lines 128-233).  The second component records
whether `_reduce_pdf_size` was invoked.  The `finally` cleanup only
deletes the temporary file and does not affect the returned value, so it
is not modelled. -/
def extract_from_pdf (env : PipelineEnv) (cfg : Config) (pdfPath : String) :
    ExtractionResult × Bool :=
  match env.getFileSize pdfPath with
  | .error e => (catchAllResult env.now e pdfPath [], false)
  | .ok sizeBytes =>
    let file_size_mb : ℚ := (sizeBytes : ℚ) / (1024 * 1024)
    let reductionEnabled := cfg.pdfReduction.enabled.getD true
    let maxSizeMb := cfg.pdfReduction.maxFileSizeMb.getD 50
    if reductionEnabled && decide (file_size_mb > maxSizeMb) then
      match env.reducePdf pdfPath with
      | .error e =>
          ({ success := false, data := JsonVal.obj [],
             errors := ["PDF size reduction failed: " ++ e],
             warnings := [], metadata := [] }, true)
      | .ok rpath =>
        match env.getFileSize rpath with
        | .error e => (catchAllResult env.now e pdfPath [], true)
        | .ok rbytes =>
          let reduced_size_mb : ℚ := (rbytes : ℚ) / (1024 * 1024)
          (extract_pipeline_rest env cfg pdfPath rpath (some rpath) file_size_mb
            ["PDF was reduced from " ++ env.format2f file_size_mb ++ "MB to "
              ++ env.format2f reduced_size_mb ++ "MB"], true)
    else
      (extract_pipeline_rest env cfg pdfPath pdfPath none file_size_mb [], false)

/-! ## Concrete instances used by witnesses and counterexamples -/

/-- Whether a required header field is missing or empty in a header
mapping (the condition `field not in header or not header[field]`). -/
def headerFieldBad (hfs : List (String × JsonVal)) (f : String) : Bool :=
  match lookupKey hfs f with
  | none => true
  | some v => v.falsy

/-- A transaction whose `buy_quantity` arrives as the string `"5"`. -/
def txBefore : JsonVal :=
  JsonVal.obj [("isin", JsonVal.str "INE00WC01027"),
    ("security_name", JsonVal.str "AFFLE (INDIA) LIMITED"),
    ("buy_quantity", JsonVal.str "5")]

/-- `txBefore` after validation: `buy_quantity` has been coerced in place
to the number 5. -/
def txAfter : JsonVal :=
  JsonVal.obj [("isin", JsonVal.str "INE00WC01027"),
    ("security_name", JsonVal.str "AFFLE (INDIA) LIMITED"),
    ("buy_quantity", JsonVal.num 5)]

/-- A transaction carrying no numeric fields at all. -/
def txPure : JsonVal :=
  JsonVal.obj [("isin", JsonVal.str "INE00WC01027"),
    ("security_name", JsonVal.str "X")]

/-- A fully valid extraction payload (every required field present and
non-empty, no transactions). -/
def validDoc : JsonVal :=
  JsonVal.obj [
    ("header", JsonVal.obj [
      ("contract_note_no", JsonVal.str "CN1"),
      ("trade_date", JsonVal.str "10-02-2025"),
      ("settlement_no", JsonVal.str "2025029"),
      ("settlement_date", JsonVal.str "07-02-2025"),
      ("client_id", JsonVal.str "5550001544"),
      ("client_name", JsonVal.str "PKEDAY ADVISORS LLP")]),
    ("transactions", JsonVal.arr []),
    ("obligations", JsonVal.obj [
      ("pay_out_obligation", JsonVal.num 1),
      ("taxable_value_of_supply", JsonVal.obj [
        ("total_brokerage", JsonVal.num 1),
        ("exchange_transaction_charges", JsonVal.num 1),
        ("sebi_turnover_fees", JsonVal.num 1),
        ("total_taxable_value", JsonVal.num 1)]),
      ("gst_details", JsonVal.obj [
        ("cgst_rate", JsonVal.num 1), ("cgst_brokerage_amount", JsonVal.num 1),
        ("cgst_charges_amount", JsonVal.num 1), ("cgst_total_amount", JsonVal.num 1),
        ("sgst_rate", JsonVal.num 1), ("sgst_brokerage_amount", JsonVal.num 1),
        ("sgst_charges_amount", JsonVal.num 1), ("sgst_total_amount", JsonVal.num 1),
        ("igst_rate", JsonVal.num 1), ("igst_brokerage_amount", JsonVal.num 1),
        ("igst_charges_amount", JsonVal.num 1), ("igst_total_amount", JsonVal.num 1)]),
      ("securities_transaction_tax", JsonVal.num 1),
      ("stamp_duty", JsonVal.num 1),
      ("net_amount_receivable_by_client", JsonVal.num 1),
      ("net_amount_to_be_credited_in_bank", JsonVal.num 1)])]

/-- A deterministic environment: every file is one megabyte, uploads
succeed, extraction yields `validDoc`. -/
def envW : PipelineEnv :=
  { getFileSize := fun _ => .ok 1048576,
    reducePdf := fun p => .ok p,
    uploadPdf := fun _ => some "file-123",
    extractData := fun _ => validDoc,
    now := "2025-01-01T00:00:00",
    format2f := fun _ => "1.00" }

/-- Reduction enabled with the default 50 MB threshold. -/
def cfgW : Config :=
  { model := "gpt-5", pdfReduction := { enabled := some true, maxFileSizeMb := some 50 } }

/-! ## Theorems and supporting lemmas -/

/-- Claim C1: a document with at most 4 pages is passed through unchanged;
a document with `n > 4` pages is reduced to exactly the 4 pages
`[0,1] ++ [n-2,n-1]` in original order, and the output is a sublist of the
input (so no page is duplicated when the input pages are distinct),
including for `n = 5` and `n = 6`. -/
theorem reduce_pdf_pages_spec {α : Type} (pages : List α) :
    (pages.length ≤ 4 → reduce_pdf_pages pages = pages) ∧
    (4 < pages.length →
      reduce_pdf_pages pages = pages.take 2 ++ pages.drop (pages.length - 2) ∧
      (reduce_pdf_pages pages).length = 4 ∧
      List.Sublist (reduce_pdf_pages pages) pages ∧
      (pages.Nodup → (reduce_pdf_pages pages).Nodup)) := by
  constructor
  · intro h
    simp [reduce_pdf_pages, h]
  · intro h
    have hnle : ¬ pages.length ≤ 4 := by omega
    have heq : reduce_pdf_pages pages
        = pages.take 2 ++ pages.drop (pages.length - 2) := by
      simp [reduce_pdf_pages, hnle]
    have hlen : (pages.take 2 ++ pages.drop (pages.length - 2)).length = 4 := by
      simp [List.length_take, List.length_drop]
      omega
    have hsub : List.Sublist (pages.take 2 ++ pages.drop (pages.length - 2)) pages := by
      have h1 : List.Sublist (pages.take 2) (pages.take (pages.length - 2)) := by
        have : pages.take 2 = (pages.take (pages.length - 2)).take 2 := by
          rw [List.take_take]
          congr 1
          omega
        rw [this]
        exact List.take_sublist _ _
      have h2 : List.Sublist (pages.take 2 ++ pages.drop (pages.length - 2))
          (pages.take (pages.length - 2) ++ pages.drop (pages.length - 2)) :=
        List.Sublist.append h1 (List.Sublist.refl _)
      rw [List.take_append_drop] at h2
      exact h2
    refine ⟨heq, ?_, ?_, ?_⟩
    · rw [heq]; exact hlen
    · rw [heq]; exact hsub
    · intro hnd
      rw [heq]
      exact List.Sublist.nodup hsub hnd

/-- Witness for C1 at page counts 5 and 6: the overlap-prone sizes both
yield exactly 4 distinct pages, first two then last two. -/
theorem reduce_pdf_pages_spec_witness :
    reduce_pdf_pages [0, 1, 2, 3, 4] = [0, 1, 3, 4] ∧
    reduce_pdf_pages [0, 1, 2, 3, 4, 5] = [0, 1, 4, 5] ∧
    ([0, 1, 2, 3, 4] : List ℕ).Nodup ∧
    (reduce_pdf_pages [0, 1, 2, 3, 4]).Nodup ∧
    reduce_pdf_pages [9, 9, 9] = [9, 9, 9] := by
  have h5 := (reduce_pdf_pages_spec ([0, 1, 2, 3, 4] : List ℕ)).2 (by decide)
  have h6 := (reduce_pdf_pages_spec ([0, 1, 2, 3, 4, 5] : List ℕ)).2 (by decide)
  have h3 := (reduce_pdf_pages_spec ([9, 9, 9] : List ℕ)).1 (by decide)
  refine ⟨?_, ?_, by decide, ?_, h3⟩
  · rw [h5.1]; decide
  · rw [h6.1]; decide
  · exact h5.2.2.2 (by decide)

/-- The first component of the scan is the net brace balance. -/
theorem netBraces_append (a b : List Char) :
    netBraces (a ++ b) = netBraces a + netBraces b := by
  induction a with
  | nil => simp [netBraces]
  | cons ch t ih => simp [netBraces, ih]; ring

theorem braceScanAux_fst (l : List Char) (c : Int) (i : Nat) (lp : Option Nat) :
    (braceScanAux l c i lp).1 = c + netBraces l := by
  induction l generalizing c i lp with
  | nil => simp [braceScanAux, netBraces]
  | cons ch t ih =>
      rw [braceScanAux, ih]
      simp [netBraces]
      ring

/-- Characterization of `last_complete_pos`: either no closing brace ever
returns the running counter to zero and the accumulator is returned, or the
result is the absolute index of the last position at which that happens. -/
theorem braceScanAux_snd (l : List Char) (c : Int) (i : Nat) (lp : Option Nat) :
    ((braceScanAux l c i lp).2 = lp ∧
      ∀ r, r < l.length →
        ¬ (l.get? r = some '}' ∧ c + netBraces (l.take (r + 1)) = 0)) ∨
    (∃ r, r < l.length ∧ l.get? r = some '}' ∧ c + netBraces (l.take (r + 1)) = 0 ∧
      (braceScanAux l c i lp).2 = some (i + r) ∧
      ∀ q, r < q → q < l.length →
        ¬ (l.get? q = some '}' ∧ c + netBraces (l.take (q + 1)) = 0)) := by
  induction l generalizing c i lp with
  | nil =>
      left
      refine ⟨rfl, ?_⟩
      intro r hr
      simp at hr
  | cons ch t ih =>
      have step : braceScanAux (ch :: t) c i lp
          = braceScanAux t (c + braceDelta ch) (i + 1)
              (if ch = '}' ∧ c + braceDelta ch = 0 then some i else lp) := rfl
      have zr_zero : ((ch :: t).get? 0 = some '}' ∧ c + netBraces ((ch :: t).take 1) = 0)
          ↔ (ch = '}' ∧ c + braceDelta ch = 0) := by
        simp [netBraces]
      have zr_succ : ∀ r : Nat,
          ((ch :: t).get? (r + 1) = some '}' ∧ c + netBraces ((ch :: t).take (r + 2)) = 0)
          ↔ (t.get? r = some '}' ∧ (c + braceDelta ch) + netBraces (t.take (r + 1)) = 0) := by
        intro r
        rw [List.get?_cons_succ, List.take_succ_cons]
        constructor
        · rintro ⟨h1, h2⟩
          refine ⟨h1, ?_⟩
          simp [netBraces] at h2
          linarith
        · rintro ⟨h1, h2⟩
          refine ⟨h1, ?_⟩
          simp [netBraces]
          linarith
      rcases ih (c + braceDelta ch) (i + 1)
          (if ch = '}' ∧ c + braceDelta ch = 0 then some i else lp) with
        ⟨h2, hnone⟩ | ⟨r, hr, hget, hnet, h2, hmax⟩
      · by_cases hch : ch = '}' ∧ c + braceDelta ch = 0
        · right
          refine ⟨0, by simp, (zr_zero.mpr hch).1, ?_, ?_, ?_⟩
          · have := (zr_zero.mpr hch).2
            simpa using this
          · rw [step, h2, if_pos hch]
            simp
          · intro q hq0 hq
            match q, hq0 with
            | q' + 1, _ =>
              rw [show q' + 1 + 1 = q' + 2 by rfl, zr_succ q']
              exact hnone q' (by simp at hq; omega)
        · left
          constructor
          · rw [step, h2, if_neg hch]
          · intro r hr
            match r with
            | 0 => rw [zr_zero]; exact hch
            | r' + 1 =>
              rw [show r' + 1 + 1 = r' + 2 by rfl, zr_succ r']
              exact hnone r' (by simp at hr; omega)
      · right
        refine ⟨r + 1, by simp; omega, ((zr_succ r).mpr ⟨hget, hnet⟩).1, ?_, ?_, ?_⟩
        · have := ((zr_succ r).mpr ⟨hget, hnet⟩).2
          simpa using this
        · rw [step, h2]
          congr 1
          omega
        · intro q hq1 hq2
          match q, hq1 with
          | q' + 1, _ =>
            rw [show q' + 1 + 1 = q' + 2 by rfl, zr_succ q']
            exact hmax q' (by omega) (by simp at hq2; omega)

theorem braceScan_fst (s : List Char) : (braceScan s).1 = netBraces s := by
  have := braceScanAux_fst s 0 0 none
  simpa [braceScan] using this

/-- When the scan reports a `last_complete_pos`, that position carries a
closing brace, the prefix through it is balanced, and it is the last such
position. -/
theorem braceScan_snd_some (s : List Char) (p : Nat)
    (hp : (braceScan s).2 = some p) :
    p < s.length ∧ s.get? p = some '}' ∧ netBraces (s.take (p + 1)) = 0 ∧
    ∀ q, p < q → q < s.length →
      ¬ (s.get? q = some '}' ∧ netBraces (s.take (q + 1)) = 0) := by
  rcases braceScanAux_snd s 0 0 none with ⟨h2, _⟩ | ⟨r, hr, hget, hnet, h2, hmax⟩
  · rw [braceScan] at hp
    rw [h2] at hp
    exact absurd hp (by simp)
  · rw [braceScan] at hp
    rw [h2] at hp
    have hrp : r = p := by simpa using hp
    subst hrp
    refine ⟨hr, hget, by simpa using hnet, ?_⟩
    intro q hq1 hq2 hzr
    exact hmax q hq1 hq2 ⟨hzr.1, by simpa using hzr.2⟩

/-- A reported `last_complete_pos` is strictly positive (the guard
`last_complete_pos > 0` in the source never discards a reported
position). -/
theorem braceScan_snd_pos (s : List Char) (p : Nat)
    (hp : (braceScan s).2 = some p) : 0 < p := by
  obtain ⟨hlt, hget, hnet, _⟩ := braceScan_snd_some s p hp
  by_contra h0
  have hp0 : p = 0 := by omega
  subst hp0
  match s, hget with
  | a :: t, hget =>
    have ha : a = '}' := by simpa using hget
    subst ha
    rw [List.take_succ_cons, List.take_zero] at hnet
    simp [netBraces, braceDelta] at hnet

/-- Claim C3: on a payload with unbalanced trailing open braces in which
some prefix closes cleanly, `_fix_truncated_json` returns exactly the
prefix up to (and including) the last position at which the brace depth
returned to zero, discarding the incomplete tail; that position carries a
closing brace, the returned prefix is brace-balanced, and no later
position closes cleanly.  The function is total, so the repair never
raises. -/
theorem fix_truncated_json_spec (s : List Char) (p : Nat)
    (hp : (braceScan s).2 = some p) (hopen : 0 < (braceScan s).1) :
    fix_truncated_json s = s.take (p + 1) ∧
    s.get? p = some '}' ∧ netBraces (s.take (p + 1)) = 0 ∧
    ∀ q, p < q → q < s.length →
      ¬ (s.get? q = some '}' ∧ netBraces (s.take (q + 1)) = 0) := by
  obtain ⟨hlt, hget, hnet, hmax⟩ := braceScan_snd_some s p hp
  have hpos := braceScan_snd_pos s p hp
  have hlt1 : p < s.length - 1 := by
    by_contra hge
    have hpeq : p + 1 = s.length := by omega
    have hs : netBraces s = 0 := by
      have hsplit := List.take_append_drop (p + 1) s
      have hdrop : s.drop (p + 1) = [] := by
        apply List.drop_eq_nil_of_le
        omega
      rw [hdrop, List.append_nil] at hsplit
      rw [← hsplit]
      exact hnet
    rw [braceScan_fst] at hopen
    omega
  refine ⟨?_, hget, hnet, hmax⟩
  simp only [fix_truncated_json, hp]
  rw [if_pos ⟨hpos, hlt1⟩]

/-- Witness for C3: the truncated payload `{a:1}{b:{` (balance +2 at the
end) is repaired to its longest cleanly-closing prefix `{a:1}`. -/
theorem fix_truncated_json_spec_witness :
    (braceScan "\x7ba:1\x7d\x7bb:\x7b".data).2 = some 4 ∧
    0 < (braceScan "\x7ba:1\x7d\x7bb:\x7b".data).1 ∧
    fix_truncated_json "\x7ba:1\x7d\x7bb:\x7b".data = "\x7ba:1\x7d".data := by
  refine ⟨by decide, by decide, ?_⟩
  rw [(fix_truncated_json_spec "\x7ba:1\x7d\x7bb:\x7b".data 4 (by decide) (by decide)).1]
  decide

/-- Claim C5: whenever the cleaned text contains a brace region (a `{` with
a later `}`) and the brace scan of that region reports a position at which
the depth returns to zero, the substring handed to `json.loads` runs from
the first `{` up to the structurally-last matching `}` as determined by
brace-depth counting — not up to the naive last `}` of the text. -/
theorem parse_json_selects_structural_close (cleaned span : List Char) (p : Nat)
    (hspan : selectBraceSpan cleaned = some span)
    (hp : (braceScan span).2 = some p) :
    selected_json_string cleaned = span.take (p + 1) ∧
    span.get? p = some '}' ∧ netBraces (span.take (p + 1)) = 0 ∧
    ∀ q, p < q → q < span.length →
      ¬ (span.get? q = some '}' ∧ netBraces (span.take (q + 1)) = 0) := by
  obtain ⟨hlt, hget, hnet, hmax⟩ := braceScan_snd_some span p hp
  have hpos := braceScan_snd_pos span p hp
  refine ⟨?_, hget, hnet, hmax⟩
  simp only [selected_json_string, hspan, fix_truncated_json, hp]
  by_cases hcase : p < span.length - 1
  · rw [if_pos ⟨hpos, hcase⟩]
  · rw [if_neg (by omega)]
    have hpeq : p + 1 = span.length := by omega
    rw [hpeq, List.take_length]

/-- Witness for C5: in `x{a:1} junk }` the naive last `}` sits at index 12,
but the structural scan stops the selected substring at the matching `}`
of index 5, so `{a:1}` is what gets parsed. -/
theorem parse_json_selects_structural_close_witness :
    selectBraceSpan "x\x7ba:1\x7d junk \x7d".data
      = some "\x7ba:1\x7d junk \x7d".data ∧
    selected_json_string "x\x7ba:1\x7d junk \x7d".data = "\x7ba:1\x7d".data := by
  refine ⟨by decide, ?_⟩
  rw [(parse_json_selects_structural_close "x\x7ba:1\x7d junk \x7d".data
        "\x7ba:1\x7d junk \x7d".data 4 (by decide) (by decide)).1]
  decide

/-- Claim C4: Response Recovery never raises past its boundary — the
embedding of `_parse_json_response` is a total function — and when every
parse attempt fails (the `loads` oracle, modelling `json.loads`, raises on
every input) the result degrades to the empty mapping. -/
theorem parse_json_response_total_failure (loads : List Char → Option JsonVal)
    (text : List Char) (h : ∀ s, loads s = none) :
    parse_json_response loads text = JsonVal.obj [] := by
  rw [parse_json_response, h, h]

/-- Witness for C4: a `loads` oracle that always raises still produces the
empty mapping on a nonsense input. -/
theorem parse_json_response_total_failure_witness :
    parse_json_response (fun _ => none) "hello no json".data = JsonVal.obj [] :=
  parse_json_response_total_failure (fun _ => none) "hello no json".data
    (fun _ => rfl)

/-- Claim C2: on an empty primary response from a generation-5 model,
exactly one fallback request is issued: it targets the fixed legacy model
`gpt-4o`, adds `max_tokens` and `temperature` and removes
`max_completion_tokens`; a non-empty fallback response is parsed and
returned, while an empty fallback response or a raised fallback error
yields the empty mapping.  On an empty primary response from a
non-generation-5 model, the empty mapping is returned with no fallback
request. -/
theorem extract_with_openai_empty_response (cfg : OpenAIConfig) (model : String)
    (fallbackRespond : RequestParams → Except String String)
    (loads : List Char → Option JsonVal) :
    (isPrefixList "gpt-5".data model.data = true →
      (extract_with_openai cfg model (Except.ok "") fallbackRespond loads).2
          = [build_fallback_params cfg (build_request_params cfg model)] ∧
      (build_fallback_params cfg (build_request_params cfg model)).model = "gpt-4o" ∧
      (build_fallback_params cfg (build_request_params cfg model)).maxTokens
          = some cfg.maxTokens ∧
      (build_fallback_params cfg (build_request_params cfg model)).temperature
          = some (cfg.temperature.getD (1 / 10)) ∧
      (build_fallback_params cfg (build_request_params cfg model)).maxCompletionTokens
          = none ∧
      (∀ t, fallbackRespond (build_fallback_params cfg (build_request_params cfg model))
          = Except.ok t → t ≠ "" →
        (extract_with_openai cfg model (Except.ok "") fallbackRespond loads).1
          = parse_json_response loads t.data) ∧
      (fallbackRespond (build_fallback_params cfg (build_request_params cfg model))
          = Except.ok "" →
        (extract_with_openai cfg model (Except.ok "") fallbackRespond loads).1
          = JsonVal.obj []) ∧
      (∀ e, fallbackRespond (build_fallback_params cfg (build_request_params cfg model))
          = Except.error e →
        (extract_with_openai cfg model (Except.ok "") fallbackRespond loads).1
          = JsonVal.obj [])) ∧
    (isPrefixList "gpt-5".data model.data = false →
      extract_with_openai cfg model (Except.ok "") fallbackRespond loads
        = (JsonVal.obj [], [])) := by
  constructor
  · intro h5
    have hunf : extract_with_openai cfg model (Except.ok "") fallbackRespond loads
        = (match fallbackRespond (build_fallback_params cfg (build_request_params cfg model)) with
           | .ok ftext =>
               if ftext = "" then
                 (JsonVal.obj [],
                  [build_fallback_params cfg (build_request_params cfg model)])
               else
                 (parse_json_response loads ftext.data,
                  [build_fallback_params cfg (build_request_params cfg model)])
           | .error _ =>
               (JsonVal.obj [],
                [build_fallback_params cfg (build_request_params cfg model)])) := by
      simp [extract_with_openai, h5]
    refine ⟨?_, rfl, rfl, rfl, rfl, ?_, ?_, ?_⟩
    · rw [hunf]
      cases hfb : fallbackRespond (build_fallback_params cfg (build_request_params cfg model)) with
      | ok t =>
          by_cases ht : t = "" <;> simp [ht]
      | error e => simp
    · intro t hfb ht
      rw [hunf, hfb]
      simp [ht]
    · intro hfb
      rw [hunf, hfb]
      simp
    · intro e hfb
      rw [hunf, hfb]
  · intro h5
    simp [extract_with_openai, h5]

/-- Witness for C2: a concrete gpt-5 run whose fallback returns
`{a:1}` parses to that mapping, with exactly one fallback request carrying
the legacy parameters; a concrete gpt-4o run with an empty response
returns the empty mapping and issues no fallback request. -/
theorem extract_with_openai_empty_response_witness :
    (extract_with_openai ⟨1000, none⟩ "gpt-5-mini" (Except.ok "")
        (fun _ => Except.ok "```json\n\x7ba:1\x7d\n```")
        (fun s => if s = "\x7ba:1\x7d".data
          then some (JsonVal.obj [("a", JsonVal.num 1)]) else none)).2
      = [{ model := "gpt-4o", maxTokens := some 1000,
           temperature := some (1 / 10), maxCompletionTokens := none }] ∧
    (extract_with_openai ⟨1000, none⟩ "gpt-5-mini" (Except.ok "")
        (fun _ => Except.ok "```json\n\x7ba:1\x7d\n```")
        (fun s => if s = "\x7ba:1\x7d".data
          then some (JsonVal.obj [("a", JsonVal.num 1)]) else none)).1
      = JsonVal.obj [("a", JsonVal.num 1)] ∧
    extract_with_openai ⟨1000, none⟩ "gpt-4o" (Except.ok "")
        (fun _ => Except.ok "```json\n\x7ba:1\x7d\n```")
        (fun s => if s = "\x7ba:1\x7d".data
          then some (JsonVal.obj [("a", JsonVal.num 1)]) else none)
      = (JsonVal.obj [], []) := by
  have h5 := (extract_with_openai_empty_response ⟨1000, none⟩ "gpt-5-mini"
    (fun _ => Except.ok "```json\n\x7ba:1\x7d\n```")
    (fun s => if s = "\x7ba:1\x7d".data
      then some (JsonVal.obj [("a", JsonVal.num 1)]) else none)).1 (by decide)
  have h4 := (extract_with_openai_empty_response ⟨1000, none⟩ "gpt-4o"
    (fun _ => Except.ok "```json\n\x7ba:1\x7d\n```")
    (fun s => if s = "\x7ba:1\x7d".data
      then some (JsonVal.obj [("a", JsonVal.num 1)]) else none)).2 (by decide)
  refine ⟨?_, ?_, h4⟩
  · rw [h5.1]
    rfl
  · rw [h5.2.2.2.2.2.1 "```json\n\x7ba:1\x7d\n```" rfl (by decide)]
    rfl

/-- Claim C10: falsy parsed data (in particular the empty mapping) makes
validation return immediately with the single error
`No data extracted from PDF`, skipping the header, transactions and
obligations checks. -/
theorem validate_extracted_data_empty_early_return (data : JsonVal)
    (h : data.falsy = true) :
    validate_extracted_data data = .ok ["No data extracted from PDF"] := by
  simp [validate_extracted_data, h]

/-- Witness for C10 at the empty mapping. -/
theorem validate_extracted_data_empty_early_return_witness :
    validate_extracted_data (JsonVal.obj []) = .ok ["No data extracted from PDF"] :=
  validate_extracted_data_empty_early_return (JsonVal.obj []) rfl

/-- Counterexample to C9: `_validate_transaction` is not pure over the
parsed mapping — on a transaction whose `buy_quantity` is the string
`"5"` it succeeds with no errors but coerces the field in place, so the
resulting mapping differs from the input. -/
theorem validate_transaction_mutates :
    validate_transaction txBefore 0 = Except.ok ([], txAfter) ∧ txAfter ≠ txBefore := by
  constructor
  · rfl
  · simp [txAfter, txBefore]

/-- The numeric-coercion loop leaves the transaction unchanged when every
listed field is absent, `None` or already numeric: on such inputs the
loop never reaches `float(value)`, so no assignment can occur. -/
theorem coerce_numeric_fields_no_mutation (pfx : String) (fields : List String)
    (errs : List String) (t : JsonVal)
    (hnc : ∀ f ∈ fields, ∀ v, pyGet t f JsonVal.null = Except.ok v →
      v = JsonVal.null ∨ isNumericPy v = true) :
    ∀ errs2 t2, coerce_numeric_fields pfx fields errs t = Except.ok (errs2, t2) → t2 = t := by
  induction fields generalizing errs with
  | nil =>
      intro errs2 t2 h
      rw [coerce_numeric_fields] at h
      simp at h
      exact h.2.symm
  | cons f rest ih =>
      intro errs2 t2 h
      have hnc' : ∀ g ∈ rest, ∀ v, pyGet t g JsonVal.null = Except.ok v →
          v = JsonVal.null ∨ isNumericPy v = true :=
        fun g hg => hnc g (List.mem_cons_of_mem _ hg)
      rw [coerce_numeric_fields] at h
      cases hg : pyGet t f JsonVal.null with
      | error e => rw [hg] at h; simp at h
      | ok v =>
        rw [hg] at h
        cases v with
        | null => exact ih errs hnc' errs2 t2 h
        | bool b => exact ih errs hnc' errs2 t2 (by simpa [isNumericPy] using h)
        | num q => exact ih errs hnc' errs2 t2 (by simpa [isNumericPy] using h)
        | str s =>
            rcases hnc f (List.mem_cons_self f rest) (JsonVal.str s) hg with h' | h'
            · simp at h'
            · simp [isNumericPy] at h'
        | arr xs =>
            rcases hnc f (List.mem_cons_self f rest) (JsonVal.arr xs) hg with h' | h'
            · simp at h'
            · simp [isNumericPy] at h'
        | obj fs =>
            rcases hnc f (List.mem_cons_self f rest) (JsonVal.obj fs) hg with h' | h'
            · simp at h'
            · simp [isNumericPy] at h'

/-- Amended C9: `_validate_transaction` returns the ordered list of error
strings, but it is not pure over the parsed mapping — whenever a listed
numeric field holds a non-null, non-numeric value that `float` accepts,
the coerced number is assigned back into the transaction in place (see
the counterexample).  The mapping is guaranteed unchanged whenever every
listed numeric field is absent, `None` or already numeric: coercion is
then never attempted, so no mutation can occur. -/
theorem validate_transaction_errors_pure_without_coercion
    (t : JsonVal) (i : ℕ) (errs : List String) (t2 : JsonVal)
    (hok : validate_transaction t i = Except.ok (errs, t2))
    (hnc : ∀ f ∈ numericFields, ∀ v, pyGet t f JsonVal.null = Except.ok v →
      v = JsonVal.null ∨ isNumericPy v = true) :
    t2 = t := by
  rw [validate_transaction] at hok
  split at hok
  · simp at hok
  · split at hok
    · simp at hok
    · split at hok
      · simp at hok
      · exact coerce_numeric_fields_no_mutation _ _ _ _ hnc errs t2 hok

/-- Witness for the amended C9: a transaction with no numeric fields is
returned unchanged with no errors. -/
theorem validate_transaction_errors_pure_witness :
    validate_transaction txPure 3 = Except.ok ([], txPure) := by
  have hnc : ∀ f ∈ numericFields, ∀ v, pyGet txPure f JsonVal.null = Except.ok v →
      v = JsonVal.null ∨ isNumericPy v = true := by
    intro f hf v hg
    fin_cases hf <;> simp_all [pyGet, txPure, lookupKey]
  have hraw : validate_transaction txPure 3
      = Except.ok ([], JsonVal.obj [("isin", JsonVal.str "INE00WC01027"),
          ("security_name", JsonVal.str "X")]) := rfl
  have hpure := validate_transaction_errors_pure_without_coercion txPure 3 _ _ hraw hnc
  rw [hraw, hpure]

/-- Success/errors agreement for the tail of the pipeline. -/
theorem extract_pipeline_rest_success_iff (env : PipelineEnv) (cfg : Config)
    (origPath usePath : String) (reducedPath : Option String)
    (mb : ℚ) (warnings : List String) :
    ((extract_pipeline_rest env cfg origPath usePath reducedPath mb warnings).success = true) ↔
    ((extract_pipeline_rest env cfg origPath usePath reducedPath mb warnings).errors = []) := by
  simp only [extract_pipeline_rest]
  split
  · simp
  · split
    · simp [catchAllResult]
    · split
      · simp [catchAllResult]
      · simp [List.isEmpty_iff]

/-- Claim C7: on every exit path of `extract_from_pdf` — reduction
failure, upload failure, validation issues, the catch-all handler and the
normal path — the returned result satisfies `success = true` exactly when
its `errors` sequence is empty. -/
theorem extract_from_pdf_success_iff_no_errors (env : PipelineEnv) (cfg : Config)
    (pdfPath : String) :
    ((extract_from_pdf env cfg pdfPath).1.success = true) ↔
    ((extract_from_pdf env cfg pdfPath).1.errors = []) := by
  simp only [extract_from_pdf]
  split
  · simp [catchAllResult]
  · split
    · split
      · simp
      · split
        · simp [catchAllResult]
        · exact extract_pipeline_rest_success_iff env cfg pdfPath _ _ _ _
    · exact extract_pipeline_rest_success_iff env cfg pdfPath _ _ _ _

/-- Metadata built without a reduced file reports `file_reduced = False`. -/
theorem buildMetadata_none_file_reduced (env : PipelineEnv)
    (model now origPath fileId : String) (ed : JsonVal) (nerr : ℕ) (mb : ℚ)
    (md : List (String × JsonVal))
    (h : buildMetadata env model now origPath fileId ed nerr mb none = .ok md) :
    lookupKey md "file_reduced" = some (JsonVal.bool false) := by
  rw [buildMetadata] at h
  split at h
  · exact absurd h (by simp)
  · split at h
    · exact absurd h (by simp)
    · simp at h
      subst h
      simp [lookupKey]

/-- Without a reduced file, the pipeline tail never reports
`file_reduced = True`, and on a successful run it reports
`file_reduced = False`. -/
theorem extract_pipeline_rest_file_reduced_none (env : PipelineEnv) (cfg : Config)
    (origPath usePath : String) (mb : ℚ) (warnings : List String) :
    (∀ r, lookupKey (extract_pipeline_rest env cfg origPath usePath none mb warnings).metadata
        "file_reduced" = some r → r = JsonVal.bool false) ∧
    ((extract_pipeline_rest env cfg origPath usePath none mb warnings).success = true →
      lookupKey (extract_pipeline_rest env cfg origPath usePath none mb warnings).metadata
        "file_reduced" = some (JsonVal.bool false)) := by
  cases hup : env.uploadPdf usePath with
  | none => simp [extract_pipeline_rest, hup, lookupKey]
  | some fid =>
    simp only [extract_pipeline_rest, hup]
    cases hval : validate_extracted_data (env.extractData fid) with
    | error e => simp [catchAllResult, lookupKey]
    | ok verrs =>
      cases hmd : buildMetadata env cfg.model env.now origPath fid
          (env.extractData fid) verrs.length mb none with
      | error e => simp [hmd, catchAllResult, lookupKey]
      | ok md =>
        have hlk := buildMetadata_none_file_reduced env cfg.model env.now origPath fid
          (env.extractData fid) verrs.length mb md hmd
        simp [hmd, hlk]

/-- Claim C8: reduction is attempted exactly when reduction is enabled in
configuration and the file size in megabytes strictly exceeds the
configured threshold — page count plays no role — and when the gate does
not fire the metadata never reports `file_reduced = True` and reports
`file_reduced = False` on a successful run. -/
theorem extract_from_pdf_reduction_gate (env : PipelineEnv) (cfg : Config)
    (pdfPath : String) (n : ℕ) (hsz : env.getFileSize pdfPath = Except.ok n) :
    (extract_from_pdf env cfg pdfPath).2
      = (cfg.pdfReduction.enabled.getD true &&
         decide ((n : ℚ) / (1024 * 1024) > cfg.pdfReduction.maxFileSizeMb.getD 50)) ∧
    ((cfg.pdfReduction.enabled.getD true &&
         decide ((n : ℚ) / (1024 * 1024) > cfg.pdfReduction.maxFileSizeMb.getD 50)) = false →
      (∀ r, lookupKey (extract_from_pdf env cfg pdfPath).1.metadata "file_reduced"
          = some r → r = JsonVal.bool false) ∧
      ((extract_from_pdf env cfg pdfPath).1.success = true →
        lookupKey (extract_from_pdf env cfg pdfPath).1.metadata "file_reduced"
          = some (JsonVal.bool false))) := by
  by_cases hgate : (cfg.pdfReduction.enabled.getD true &&
      decide ((n : ℚ) / (1024 * 1024) > cfg.pdfReduction.maxFileSizeMb.getD 50)) = true
  · constructor
    · simp only [extract_from_pdf, hsz, hgate, if_true]
      split
      · rfl
      · split
        · rfl
        · rfl
    · intro hf
      rw [hgate] at hf
      exact absurd hf (by simp)
  · have hgf : (cfg.pdfReduction.enabled.getD true &&
        decide ((n : ℚ) / (1024 * 1024) > cfg.pdfReduction.maxFileSizeMb.getD 50)) = false := by
      simpa using hgate
    constructor
    · simp only [extract_from_pdf, hsz, hgf]
      rfl
    · intro _
      simp only [extract_from_pdf, hsz, hgf, Bool.false_eq_true, if_false]
      exact extract_pipeline_rest_file_reduced_none env cfg pdfPath pdfPath _ _

/-- Witness for C8: a one-megabyte document under the 50 MB threshold with
reduction enabled is not reduced, and the successful run reports
`file_reduced = False` in its metadata. -/
theorem extract_from_pdf_reduction_gate_witness :
    (extract_from_pdf envW cfgW "doc.pdf").2 = false ∧
    lookupKey (extract_from_pdf envW cfgW "doc.pdf").1.metadata "file_reduced"
      = some (JsonVal.bool false) := by
  have hlt : ¬(((1048576 : ℕ) : ℚ) / (1024 * 1024) > (50 : ℚ)) := by norm_num
  have h := extract_from_pdf_reduction_gate envW cfgW "doc.pdf" 1048576 rfl
  have hgate : (cfgW.pdfReduction.enabled.getD true &&
      decide (((1048576 : ℕ) : ℚ) / (1024 * 1024) > cfgW.pdfReduction.maxFileSizeMb.getD 50))
      = false := by
    simp [cfgW, hlt]
    norm_num
  have hsucc : (extract_from_pdf envW cfgW "doc.pdf").1.success = true := by
    have hpipe : extract_from_pdf envW cfgW "doc.pdf"
        = (extract_pipeline_rest envW cfgW "doc.pdf" "doc.pdf" none
            (((1048576 : ℕ) : ℚ) / (1024 * 1024)) [], false) := by
      simp [extract_from_pdf, envW, cfgW, hlt]
      norm_num
    rw [hpipe]
    decide
  refine ⟨?_, (h.2 hgate).2 hsucc⟩
  rw [h.1]
  exact hgate

/-- Two appended strings differ whenever their first components differ
within a common prefix length. -/
theorem append_ne_append_of_take (a x b y : String) (n : ℕ) (hna : n ≤ a.length)
    (hnb : n ≤ b.length) (h : a.data.take n ≠ b.data.take n) : a ++ x ≠ b ++ y := by
  intro he
  apply h
  have hd := congrArg String.data he
  rw [String.data_append, String.data_append] at hd
  calc a.data.take n = (a.data ++ x.data).take n :=
        (List.take_append_of_le_length hna).symm
    _ = (b.data ++ y.data).take n := by rw [hd]
    _ = b.data.take n := List.take_append_of_le_length hnb

/-- An appended string differs from a plain string whose prefix differs. -/
theorem append_ne_of_take (a x b : String) (n : ℕ) (hna : n ≤ a.length)
    (hnb : n ≤ b.length) (h : a.data.take n ≠ b.data.take n) : a ++ x ≠ b := by
  have hb := append_ne_append_of_take a x b "" n hna hnb h
  simpa using hb

theorem count_eq_zero_of_ne_all {m : String} {l : List String}
    (h : ∀ e ∈ l, e ≠ m) : l.count m = 0 :=
  List.count_eq_zero.mpr (fun hm => h m hm rfl)

theorem count_filter_eq (a : String) (l : List String) (p : String → Bool) :
    (l.filter p).count a = if p a then l.count a else 0 := by
  induction l with
  | nil => simp
  | cons hd tl ih =>
      by_cases hp : p hd
      · rw [List.filter_cons_of_pos hp, List.count_cons, List.count_cons, ih]
        by_cases ha : hd = a
        · subst ha; simp [hp]
        · simp [ha]
      · rw [List.filter_cons_of_neg hp, ih]
        by_cases ha : hd = a
        · subst ha; simp [hp, List.count_cons]
        · simp [ha, List.count_cons]

theorem headerFieldMsg_injective : Function.Injective headerFieldMsg := by
  intro a b h
  simp only [headerFieldMsg] at h
  have hd := congrArg String.data h
  rw [String.data_append, String.data_append] at hd
  exact String.ext (List.append_cancel_left hd)

/-- Elements of a membership-singleton conditional. -/
theorem mem_ite_singleton {c : Prop} [Decidable c] {a e : String}
    (h : e ∈ (if c then [a] else [])) : e = a := by
  split at h <;> simp_all

/-- Every error produced by the shared missing-field loop is one of the
`mk`-messages. -/
theorem missing_field_errors_shape (container : JsonVal) (fields : List String)
    (mk : String → String) (es : List String)
    (h : missing_field_errors container fields mk = .ok es) :
    ∀ e ∈ es, ∃ f, e = mk f := by
  induction fields generalizing es with
  | nil =>
      rw [missing_field_errors] at h
      simp at h
      subst h
      simp
  | cons f rest ih =>
      rw [missing_field_errors] at h
      cases h1 : pyIn f container with
      | error e0 => rw [h1] at h; simp at h
      | ok mem =>
        rw [h1] at h
        cases h2 : missing_field_errors container rest mk with
        | error e0 => rw [h2] at h; simp at h
        | ok others =>
          rw [h2] at h
          simp at h
          subst h
          intro e he
          rcases List.mem_append.mp he with h3 | h3
          · cases mem with
            | true => simp at h3
            | false =>
                simp at h3
                exact ⟨f, h3⟩
          · exact ih others h2 e h3

/-- On a dict-shaped header, the header-field loop produces exactly one
message per missing-or-empty required field, in field order. -/
theorem header_field_errors_obj (hfs : List (String × JsonVal)) (fields : List String) :
    header_field_errors (JsonVal.obj hfs) fields
      = .ok ((fields.filter (headerFieldBad hfs)).map headerFieldMsg) := by
  induction fields with
  | nil => rfl
  | cons f rest ih =>
      rw [header_field_errors]
      cases hl : lookupKey hfs f with
      | none =>
          simp [pyIn, hl, ih, List.filter_cons, headerFieldBad]
      | some v =>
          by_cases hv : v.falsy
          · simp [pyIn, pyIndex, hl, hv, ih, List.filter_cons, headerFieldBad]
          · simp [pyIn, pyIndex, hl, hv, ih, List.filter_cons, headerFieldBad]

/-- Every error accumulated by the numeric-coercion loop is either carried
in from `errs` or prefixed by `pfx`. -/
theorem coerce_numeric_fields_shape (pfx : String) (fields : List String)
    (errs : List String) (t : JsonVal) (es : List String) (t2 : JsonVal)
    (herrs : ∀ e ∈ errs, ∃ x, e = pfx ++ x)
    (h : coerce_numeric_fields pfx fields errs t = .ok (es, t2)) :
    ∀ e ∈ es, ∃ x, e = pfx ++ x := by
  induction fields generalizing errs t with
  | nil =>
      rw [coerce_numeric_fields] at h
      simp at h
      exact h.1 ▸ herrs
  | cons f rest ih =>
      rw [coerce_numeric_fields] at h
      cases hg : pyGet t f JsonVal.null with
      | error e0 => rw [hg] at h; simp at h
      | ok v =>
        rw [hg] at h
        cases v with
        | null => exact ih errs t herrs h
        | bool b => exact ih errs t herrs (by simpa [isNumericPy] using h)
        | num q => exact ih errs t herrs (by simpa [isNumericPy] using h)
        | str s =>
            cases hq : pyFloat (JsonVal.str s) with
            | some q =>
                simp only [isNumericPy, Bool.false_eq_true, if_false, hq] at h
                exact ih errs _ herrs h
            | none =>
                simp only [isNumericPy, Bool.false_eq_true, if_false, hq] at h
                refine ih _ t ?_ h
                intro e he
                rcases List.mem_append.mp he with h3 | h3
                · exact herrs e h3
                · simp at h3
                  exact ⟨": Invalid numeric value for " ++ (f ++ (": " ++ pyStr (JsonVal.str s))),
                    by rw [h3]; simp [String.append_assoc]⟩
        | arr xs =>
            cases hq : pyFloat (JsonVal.arr xs) with
            | some q =>
                simp only [isNumericPy, Bool.false_eq_true, if_false, hq] at h
                exact ih errs _ herrs h
            | none =>
                simp only [isNumericPy, Bool.false_eq_true, if_false, hq] at h
                refine ih _ t ?_ h
                intro e he
                rcases List.mem_append.mp he with h3 | h3
                · exact herrs e h3
                · simp at h3
                  exact ⟨": Invalid numeric value for " ++ (f ++ (": " ++ pyStr (JsonVal.arr xs))),
                    by rw [h3]; simp [String.append_assoc]⟩
        | obj fso =>
            cases hq : pyFloat (JsonVal.obj fso) with
            | some q =>
                simp only [isNumericPy, Bool.false_eq_true, if_false, hq] at h
                exact ih errs _ herrs h
            | none =>
                simp only [isNumericPy, Bool.false_eq_true, if_false, hq] at h
                refine ih _ t ?_ h
                intro e he
                rcases List.mem_append.mp he with h3 | h3
                · exact herrs e h3
                · simp at h3
                  exact ⟨": Invalid numeric value for " ++ (f ++ (": " ++ pyStr (JsonVal.obj fso))),
                    by rw [h3]; simp [String.append_assoc]⟩

/-- Elements of the ISIN error list are prefixed by `pfx`. -/
theorem isin_errors_shape (pfx : String) (isin : JsonVal) (es : List String)
    (h : isin_errors pfx isin = .ok es) : ∀ e ∈ es, ∃ x, e = pfx ++ x := by
  rw [isin_errors.eq_def] at h
  by_cases hf : isin.falsy = true
  · rw [if_pos hf] at h
    simp at h
    subst h
    intro e he
    simp at he
    exact ⟨_, he⟩
  · rw [if_neg hf] at h
    cases isin with
    | str s =>
        simp at h
        subst h
        intro e he
        split at he
        · simp at he
        · simp at he
          exact ⟨": Invalid ISIN format: " ++ s, by rw [he, String.append_assoc]⟩
    | null => simp at h
    | bool b => simp at h
    | num q => simp at h
    | arr xs => simp at h
    | obj fs => simp at h

/-- Every error from a single transaction is prefixed by `Transaction `. -/
theorem validate_transaction_shape (t : JsonVal) (i : ℕ) (es : List String)
    (t2 : JsonVal) (h : validate_transaction t i = .ok (es, t2)) :
    ∀ e ∈ es, ∃ x, e = "Transaction " ++ x := by
  have hmain : ∀ e ∈ es, ∃ x, e = ("Transaction " ++ toString i) ++ x := by
    rw [validate_transaction] at h
    cases h1 : pyGet t "isin" (JsonVal.str "") with
    | error e0 => rw [h1] at h; simp at h
    | ok isin =>
      rw [h1] at h
      simp only [] at h
      cases h2 : isin_errors ("Transaction " ++ toString i) isin with
      | error e0 => rw [h2] at h; simp at h
      | ok isinErrs =>
        rw [h2] at h
        cases h3 : pyGet t "security_name" JsonVal.null with
        | error e0 => rw [h3] at h; simp at h
        | ok sec =>
          rw [h3] at h
          refine coerce_numeric_fields_shape _ _ _ _ _ _ ?_ h
          intro e he
          rcases List.mem_append.mp he with h4 | h4
          · exact isin_errors_shape _ _ _ h2 e h4
          · exact ⟨_, mem_ite_singleton h4⟩
  intro e he
  obtain ⟨x, hx⟩ := hmain e he
  exact ⟨toString i ++ x, by rw [hx, String.append_assoc]⟩

/-- Every error from the transaction loop is prefixed by `Transaction `. -/
theorem validate_transaction_list_shape (xs : List JsonVal) (i : ℕ)
    (es : List String) (h : validate_transaction_list xs i = .ok es) :
    ∀ e ∈ es, ∃ x, e = "Transaction " ++ x := by
  induction xs generalizing i es with
  | nil =>
      rw [validate_transaction_list] at h
      simp at h
      subst h
      simp
  | cons t rest ih =>
      rw [validate_transaction_list] at h
      cases h1 : validate_transaction t i with
      | error e0 => rw [h1] at h; simp at h
      | ok pr =>
        obtain ⟨tes, tt⟩ := pr
        rw [h1] at h
        cases h2 : validate_transaction_list rest (i + 1) with
        | error e0 => rw [h2] at h; simp at h
        | ok more =>
          rw [h2] at h
          simp at h
          subst h
          intro e he
          rcases List.mem_append.mp he with h3 | h3
          · exact validate_transaction_shape t i tes tt h1 e h3
          · exact ih (i + 1) more h2 e h3

/-- Every error from the transactions section is one of the two section
messages or a `Transaction `-prefixed message. -/
theorem validate_transactions_section_shape (data : JsonVal) (es : List String)
    (h : validate_transactions_section data = .ok es) :
    ∀ e ∈ es, e = "Missing transactions section" ∨
      e = "Transactions should be a list" ∨ ∃ x, e = "Transaction " ++ x := by
  rw [validate_transactions_section] at h
  cases h1 : pyIn "transactions" data with
  | error e0 => rw [h1] at h; simp at h
  | ok mem =>
    rw [h1] at h
    cases mem with
    | false =>
        simp at h
        subst h
        intro e he
        simp at he
        exact Or.inl he
    | true =>
      cases h2 : pyIndex data "transactions" with
      | error e0 => rw [h2] at h; simp at h
      | ok txs =>
        rw [h2] at h
        cases txs with
        | arr xs =>
            intro e he
            exact Or.inr (Or.inr (validate_transaction_list_shape xs 0 es h e he))
        | null => simp at h; subst h; intro e he; simp at he; exact Or.inr (Or.inl he)
        | bool b => simp at h; subst h; intro e he; simp at he; exact Or.inr (Or.inl he)
        | num q => simp at h; subst h; intro e he; simp at he; exact Or.inr (Or.inl he)
        | str s => simp at h; subst h; intro e he; simp at he; exact Or.inr (Or.inl he)
        | obj fs => simp at h; subst h; intro e he; simp at he; exact Or.inr (Or.inl he)

/-- Every error from `_validate_obligations` carries one of the three
obligations message prefixes. -/
theorem validate_obligations_shape (ob : JsonVal) (es : List String)
    (h : validate_obligations ob = .ok es) :
    ∀ e ∈ es, (∃ g, e = "Missing obligations field: " ++ g) ∨
      (∃ g, e = "Missing taxable value field: " ++ g) ∨
      (∃ g, e = "Missing GST detail field: " ++ g) := by
  rw [validate_obligations] at h
  cases h1 : missing_field_errors ob obligationsRequiredFields
      (fun f => "Missing obligations field: " ++ f) with
  | error e0 => rw [h1] at h; simp at h
  | ok top =>
    rw [h1] at h
    simp only [] at h
    cases h2 : pyIn "taxable_value_of_supply" ob with
    | error e0 => rw [h2] at h; simp at h
    | ok hasTvs =>
      rw [h2] at h
      simp only [] at h
      have htvs : ∀ tvsErrs, (if hasTvs = true then
            match pyIndex ob "taxable_value_of_supply" with
            | Except.error e => Except.error e
            | Except.ok tvs => missing_field_errors tvs tvsFields
                (fun f => "Missing taxable value field: " ++ f)
           else Except.ok []) = Except.ok tvsErrs →
          ∀ e ∈ tvsErrs, ∃ g, e = "Missing taxable value field: " ++ g := by
        intro tvsErrs htv
        cases hasTvs with
        | false => simp at htv; subst htv; simp
        | true =>
          rw [if_pos rfl] at htv
          cases h3 : pyIndex ob "taxable_value_of_supply" with
          | error e0 => rw [h3] at htv; simp at htv
          | ok tvs =>
              rw [h3] at htv
              exact missing_field_errors_shape tvs tvsFields _ tvsErrs htv
      cases h4 : (if hasTvs = true then
            match pyIndex ob "taxable_value_of_supply" with
            | Except.error e => Except.error e
            | Except.ok tvs => missing_field_errors tvs tvsFields
                (fun f => "Missing taxable value field: " ++ f)
           else Except.ok []) with
      | error e0 => rw [h4] at h; simp at h
      | ok tvsErrs =>
        rw [h4] at h
        simp only [] at h
        cases h5 : pyIn "gst_details" ob with
        | error e0 => rw [h5] at h; simp at h
        | ok hasGst =>
          rw [h5] at h
          simp only [] at h
          have hgst : ∀ gstErrs, (if hasGst = true then
                match pyIndex ob "gst_details" with
                | Except.error e => Except.error e
                | Except.ok gst => missing_field_errors gst gstFields
                    (fun f => "Missing GST detail field: " ++ f)
               else Except.ok []) = Except.ok gstErrs →
              ∀ e ∈ gstErrs, ∃ g, e = "Missing GST detail field: " ++ g := by
            intro gstErrs hgv
            cases hasGst with
            | false => simp at hgv; subst hgv; simp
            | true =>
              rw [if_pos rfl] at hgv
              cases h6 : pyIndex ob "gst_details" with
              | error e0 => rw [h6] at hgv; simp at hgv
              | ok gst =>
                  rw [h6] at hgv
                  exact missing_field_errors_shape gst gstFields _ gstErrs hgv
          cases h7 : (if hasGst = true then
                match pyIndex ob "gst_details" with
                | Except.error e => Except.error e
                | Except.ok gst => missing_field_errors gst gstFields
                    (fun f => "Missing GST detail field: " ++ f)
               else Except.ok []) with
          | error e0 => rw [h7] at h; simp at h
          | ok gstErrs =>
            rw [h7] at h
            simp at h
            subst h
            intro e he
            rcases List.mem_append.mp he with h8 | h8
            · exact Or.inl (missing_field_errors_shape ob obligationsRequiredFields
                _ top h1 e h8)
            · rcases List.mem_append.mp h8 with h9 | h9
              · exact Or.inr (Or.inl (htvs tvsErrs h4 e h9))
              · exact Or.inr (Or.inr (hgst gstErrs h7 e h9))

/-- Every error from the obligations section is the section message or an
obligations message. -/
theorem validate_obligations_section_shape (data : JsonVal) (es : List String)
    (h : validate_obligations_section data = .ok es) :
    ∀ e ∈ es, e = "Missing obligations section" ∨
      (∃ g, e = "Missing obligations field: " ++ g) ∨
      (∃ g, e = "Missing taxable value field: " ++ g) ∨
      (∃ g, e = "Missing GST detail field: " ++ g) := by
  rw [validate_obligations_section] at h
  cases h1 : pyIn "obligations" data with
  | error e0 => rw [h1] at h; simp at h
  | ok mem =>
    rw [h1] at h
    cases mem with
    | false =>
        simp at h
        subst h
        intro e he
        simp at he
        exact Or.inl he
    | true =>
      cases h2 : pyIndex data "obligations" with
      | error e0 => rw [h2] at h; simp at h
      | ok ob =>
        rw [h2] at h
        intro e he
        exact Or.inr (validate_obligations_shape ob es h e he)

/-- Transactions-section errors are never header messages. -/
theorem tErrs_no_header_msg (data : JsonVal) (es : List String)
    (h : validate_transactions_section data = .ok es) :
    ∀ e ∈ es, e ≠ "Missing header section" ∧ ∀ f, e ≠ headerFieldMsg f := by
  intro e he
  rcases validate_transactions_section_shape data es h e he with rfl | rfl | ⟨x, rfl⟩
  · refine ⟨by decide, ?_⟩
    intro f hc
    exact (append_ne_of_take "Missing required header field: " f
      "Missing transactions section" 9 (by decide) (by decide) (by decide)) hc.symm
  · refine ⟨by decide, ?_⟩
    intro f hc
    exact (append_ne_of_take "Missing required header field: " f
      "Transactions should be a list" 1 (by decide) (by decide) (by decide)) hc.symm
  · refine ⟨?_, ?_⟩
    · exact append_ne_of_take "Transaction " x "Missing header section" 1
        (by decide) (by decide) (by decide)
    · intro f
      exact append_ne_append_of_take "Transaction " x
        "Missing required header field: " f 1 (by decide) (by decide) (by decide)

/-- Obligations-section errors are never header messages. -/
theorem oErrs_no_header_msg (data : JsonVal) (es : List String)
    (h : validate_obligations_section data = .ok es) :
    ∀ e ∈ es, e ≠ "Missing header section" ∧ ∀ f, e ≠ headerFieldMsg f := by
  intro e he
  rcases validate_obligations_section_shape data es h e he with
    rfl | ⟨g, rfl⟩ | ⟨g, rfl⟩ | ⟨g, rfl⟩
  · refine ⟨by decide, ?_⟩
    intro f hc
    exact (append_ne_of_take "Missing required header field: " f
      "Missing obligations section" 9 (by decide) (by decide) (by decide)) hc.symm
  · refine ⟨?_, ?_⟩
    · exact append_ne_of_take "Missing obligations field: " g
        "Missing header section" 9 (by decide) (by decide) (by decide)
    · intro f hc
      exact (append_ne_append_of_take "Missing required header field: " f
        "Missing obligations field: " g 9 (by decide) (by decide) (by decide)) hc.symm
  · refine ⟨?_, ?_⟩
    · exact append_ne_of_take "Missing taxable value field: " g
        "Missing header section" 9 (by decide) (by decide) (by decide)
    · intro f hc
      exact (append_ne_append_of_take "Missing required header field: " f
        "Missing taxable value field: " g 9 (by decide) (by decide) (by decide)) hc.symm
  · refine ⟨?_, ?_⟩
    · exact append_ne_of_take "Missing GST detail field: " g
        "Missing header section" 9 (by decide) (by decide) (by decide)
    · intro f hc
      exact (append_ne_append_of_take "Missing required header field: " f
        "Missing GST detail field: " g 9 (by decide) (by decide) (by decide)) hc.symm

/-- On non-empty dict data, the validator output is the concatenation of
the three section outputs, in order. -/
theorem validate_extracted_data_decompose (fs : List (String × JsonVal))
    (hne : fs ≠ []) (errs : List String)
    (h : validate_extracted_data (JsonVal.obj fs) = .ok errs) :
    ∃ hErrs tErrs oErrs,
      validate_header (JsonVal.obj fs) = .ok hErrs ∧
      validate_transactions_section (JsonVal.obj fs) = .ok tErrs ∧
      validate_obligations_section (JsonVal.obj fs) = .ok oErrs ∧
      errs = hErrs ++ (tErrs ++ oErrs) := by
  rw [validate_extracted_data] at h
  rw [if_neg (by simp [JsonVal.falsy, List.isEmpty_iff, hne])] at h
  cases h1 : validate_header (JsonVal.obj fs) with
  | error e0 => rw [h1] at h; simp at h
  | ok hErrs =>
    rw [h1] at h
    simp only [] at h
    cases h2 : validate_transactions_section (JsonVal.obj fs) with
    | error e0 => rw [h2] at h; simp at h
    | ok tErrs =>
      rw [h2] at h
      simp only [] at h
      cases h3 : validate_obligations_section (JsonVal.obj fs) with
      | error e0 => rw [h3] at h; simp at h
      | ok oErrs =>
        rw [h3] at h
        simp at h
        exact ⟨hErrs, tErrs, oErrs, rfl, rfl, rfl, h.symm⟩

theorem count_requiredHeaderFields (f : String) (hf : f ∈ requiredHeaderFields) :
    requiredHeaderFields.count f = 1 := by
  fin_cases hf <;> decide

/-- C6 part 1: absent header section gives exactly one header error and no
per-field errors. -/
theorem validator_missing_header_once (fs : List (String × JsonVal))
    (errs : List String) (hne : fs ≠ []) (hlk : lookupKey fs "header" = none)
    (h : validate_extracted_data (JsonVal.obj fs) = .ok errs) :
    errs.count "Missing header section" = 1 ∧
    ∀ f ∈ requiredHeaderFields, errs.count (headerFieldMsg f) = 0 := by
  obtain ⟨hErrs, tErrs, oErrs, h1, h2, h3, heq⟩ :=
    validate_extracted_data_decompose fs hne errs h
  have hhv : hErrs = ["Missing header section"] := by
    rw [validate_header] at h1
    simp [pyIn, hlk] at h1
    exact h1.symm
  subst hhv
  subst heq
  have ht := tErrs_no_header_msg _ _ h2
  have ho := oErrs_no_header_msg _ _ h3
  constructor
  · rw [List.count_append, List.count_append,
      count_eq_zero_of_ne_all (fun e he => (ht e he).1),
      count_eq_zero_of_ne_all (fun e he => (ho e he).1)]
    simp
  · intro f hf
    rw [List.count_append, List.count_append,
      count_eq_zero_of_ne_all (fun e he => (ht e he).2 f),
      count_eq_zero_of_ne_all (fun e he => (ho e he).2 f),
      count_eq_zero_of_ne_all (l := ["Missing header section"]) (by
        intro e he
        simp at he
        subst he
        intro hc
        exact (append_ne_of_take "Missing required header field: " f
          "Missing header section" 9 (by decide) (by decide) (by decide)) hc.symm)]

/-- C6 part 2: a present dict header produces exactly one error per
missing-or-empty required field and no section-level header error. -/
theorem validator_incomplete_header (fs hfs : List (String × JsonVal))
    (errs : List String) (hlk : lookupKey fs "header" = some (JsonVal.obj hfs))
    (h : validate_extracted_data (JsonVal.obj fs) = .ok errs) :
    (∀ f ∈ requiredHeaderFields,
      errs.count (headerFieldMsg f) = if headerFieldBad hfs f then 1 else 0) ∧
    errs.count "Missing header section" = 0 := by
  have hne : fs ≠ [] := by
    intro hcon
    subst hcon
    simp [lookupKey] at hlk
  obtain ⟨hErrs, tErrs, oErrs, h1, h2, h3, heq⟩ :=
    validate_extracted_data_decompose fs hne errs h
  have hhv : hErrs
      = (requiredHeaderFields.filter (headerFieldBad hfs)).map headerFieldMsg := by
    rw [validate_header] at h1
    simp [pyIn, pyIndex, hlk, header_field_errors_obj] at h1
    exact h1.symm
  subst hhv
  subst heq
  have ht := tErrs_no_header_msg _ _ h2
  have ho := oErrs_no_header_msg _ _ h3
  constructor
  · intro f hf
    rw [List.count_append, List.count_append,
      count_eq_zero_of_ne_all (fun e he => (ht e he).2 f),
      count_eq_zero_of_ne_all (fun e he => (ho e he).2 f),
      List.count_map_of_injective _ _ headerFieldMsg_injective f,
      count_filter_eq, count_requiredHeaderFields f hf]
    split <;> rfl
  · rw [List.count_append, List.count_append,
      count_eq_zero_of_ne_all (fun e he => (ht e he).1),
      count_eq_zero_of_ne_all (fun e he => (ho e he).1),
      count_eq_zero_of_ne_all (by
        intro e he
        obtain ⟨g, hg, rfl⟩ := List.mem_map.mp he
        exact append_ne_of_take "Missing required header field: " g
          "Missing header section" 9 (by decide) (by decide) (by decide))]

/-- C6 part 3: all three sections missing yields exactly the three section
errors, in section order. -/
theorem validator_all_sections_missing (fs : List (String × JsonVal))
    (hne : fs ≠ []) (k1 : lookupKey fs "header" = none)
    (k2 : lookupKey fs "transactions" = none)
    (k3 : lookupKey fs "obligations" = none) :
    validate_extracted_data (JsonVal.obj fs)
      = .ok ["Missing header section", "Missing transactions section",
             "Missing obligations section"] := by
  have hh : validate_header (JsonVal.obj fs) = .ok ["Missing header section"] := by
    rw [validate_header]
    simp [pyIn, k1]
  have ht : validate_transactions_section (JsonVal.obj fs)
      = .ok ["Missing transactions section"] := by
    rw [validate_transactions_section]
    simp [pyIn, k2]
  have ho : validate_obligations_section (JsonVal.obj fs)
      = .ok ["Missing obligations section"] := by
    rw [validate_obligations_section]
    simp [pyIn, k3]
  rw [validate_extracted_data,
    if_neg (by simp [JsonVal.falsy, List.isEmpty_iff, hne])]
  simp [hh, ht, ho]

/-- Claim C6: the Result Validator accumulates and never short-circuits.
A mapping without the header section yields exactly one error mentioning
the missing header section and none of the per-field header errors; a
present-but-incomplete dict header yields exactly one error per
missing-or-empty required field (out of at most 6) and no section-level
header error; and a mapping missing all three top-level sections yields
the three section errors together. -/
theorem validate_extracted_data_accumulates :
    (∀ fs errs, fs ≠ [] → lookupKey fs "header" = none →
      validate_extracted_data (JsonVal.obj fs) = .ok errs →
      errs.count "Missing header section" = 1 ∧
      ∀ f ∈ requiredHeaderFields, errs.count (headerFieldMsg f) = 0) ∧
    (∀ fs hfs errs, lookupKey fs "header" = some (JsonVal.obj hfs) →
      validate_extracted_data (JsonVal.obj fs) = .ok errs →
      (∀ f ∈ requiredHeaderFields,
        errs.count (headerFieldMsg f) = if headerFieldBad hfs f then 1 else 0) ∧
      errs.count "Missing header section" = 0 ∧
      (requiredHeaderFields.filter (headerFieldBad hfs)).length ≤ 6) ∧
    (∀ fs, fs ≠ [] → lookupKey fs "header" = none →
      lookupKey fs "transactions" = none → lookupKey fs "obligations" = none →
      validate_extracted_data (JsonVal.obj fs)
        = .ok ["Missing header section", "Missing transactions section",
               "Missing obligations section"]) := by
  refine ⟨?_, ?_, ?_⟩
  · exact fun fs errs hne hlk h => validator_missing_header_once fs errs hne hlk h
  · intro fs hfs errs hlk h
    refine ⟨(validator_incomplete_header fs hfs errs hlk h).1,
      (validator_incomplete_header fs hfs errs hlk h).2, ?_⟩
    have hle := List.length_filter_le (headerFieldBad hfs) requiredHeaderFields
    simpa [requiredHeaderFields] using hle
  · exact fun fs hne k1 k2 k3 => validator_all_sections_missing fs hne k1 k2 k3

/-- Witness for C6: a mapping without any of the three sections yields the
three section errors exactly once each, and a header containing only
`client_id` yields one error per missing header field, for instance for
`trade_date`. -/
theorem validate_extracted_data_accumulates_witness :
    validate_extracted_data (JsonVal.obj [("x", JsonVal.null)])
      = .ok ["Missing header section", "Missing transactions section",
             "Missing obligations section"] ∧
    (["Missing header section", "Missing transactions section",
      "Missing obligations section"] : List String).count "Missing header section" = 1 ∧
    (["Missing required header field: contract_note_no",
      "Missing required header field: trade_date",
      "Missing required header field: settlement_no",
      "Missing required header field: settlement_date",
      "Missing required header field: client_name",
      "Missing transactions section",
      "Missing obligations section"] : List String).count
        (headerFieldMsg "trade_date") = 1 := by
  refine ⟨?_, ?_, ?_⟩
  · exact validate_extracted_data_accumulates.2.2 [("x", JsonVal.null)]
      (by simp) rfl rfl rfl
  · exact (validate_extracted_data_accumulates.1 [("x", JsonVal.null)]
      ["Missing header section", "Missing transactions section",
       "Missing obligations section"] (by simp) rfl
      (validate_extracted_data_accumulates.2.2 [("x", JsonVal.null)]
        (by simp) rfl rfl rfl)).1
  · have h := (validate_extracted_data_accumulates.2.1
      [("header", JsonVal.obj [("client_id", JsonVal.str "C")])]
      [("client_id", JsonVal.str "C")]
      ["Missing required header field: contract_note_no",
       "Missing required header field: trade_date",
       "Missing required header field: settlement_no",
       "Missing required header field: settlement_date",
       "Missing required header field: client_name",
       "Missing transactions section",
       "Missing obligations section"] rfl rfl).1 "trade_date" (by decide)
    rw [show headerFieldBad [("client_id", JsonVal.str "C")] "trade_date" = true from rfl] at h
    simpa using h
